import Mathlib

/-
Verification of the Attio-to-Apollo sync app.

This file gives a shallow embedding, in Lean 4, of the decision logic of the
repository: the JSON attribute-extraction helpers, the stage-name mapping
modules, the event handler, and the three per-entity sync orchestration
functions (person, company, deal).  Network endpoints (the Attio record fetch
and the Apollo search, create, update and stage-list endpoints) are modelled
as explicit oracle parameters holding the value each call would return, and
every request issued to Apollo is recorded in an explicit trace.  JavaScript
runtime behaviour (truthiness, undefined versus null, property access on
non-objects, string coercion) is modelled explicitly on a JSON value type.
-/

namespace AttioApollo

/-- JavaScript values as produced by JSON parsing.  The absent value
(undefined) is represented at use sites by an enclosing Option, where
none stands for undefined; JsonV.null is the JavaScript null.
Numbers are modelled as integers; no claim in this development depends on
fractional values. -/
inductive JsonV where
  | null
  | bool (b : Bool)
  | num (n : Int)
  | str (s : String)
  | arr (elems : List JsonV)
  | obj (fields : List (String × JsonV))
deriving Repr

/-- JavaScript truthiness of a defined value. -/
def truthy : JsonV → Bool
  | .null => false
  | .bool b => b
  | .num n => n != 0
  | .str s => s != ""
  | .arr _ => true
  | .obj _ => true

/-- JavaScript truthiness where none is undefined. -/
def otruthy : Option JsonV → Bool
  | none => false
  | some v => truthy v

/-- Property access a.k on a defined value: undefined (none) unless the value
is an object with the key.  Arrays and scalars have no own string-keyed
properties that the source reads. -/
def jget : JsonV → String → Option JsonV
  | .obj fields, k => fields.lookup k
  | _, _ => none

/-- Optional-chaining access a?.k: undefined when a is undefined or null. -/
def ojget : Option JsonV → String → Option JsonV
  | none, _ => none
  | some .null, _ => none
  | some v, k => jget v k

/-- Index access a[i]: element lookup on arrays, string-keyed lookup on
objects, undefined otherwise. -/
def jsIndex : JsonV → Nat → Option JsonV
  | .arr l, i => l.get? i
  | .obj fields, i => fields.lookup (toString i)
  | _, _ => none

/-- Index access through an Option (a possibly undefined value). -/
def ojsIndex : Option JsonV → Nat → Option JsonV
  | none, _ => none
  | some v, i => jsIndex v i

/-- The JavaScript or operator a or-else b, where a may be undefined. -/
def jsOrO (a b : Option JsonV) : Option JsonV :=
  match a with
  | some v => if truthy v then some v else b
  | none => b

/-- The JavaScript or operator with a defined default. -/
def jsOrJ (a : Option JsonV) (d : JsonV) : JsonV :=
  match a with
  | some v => if truthy v then v else d
  | none => d

/-- Is a defined value the JavaScript null. -/
def isNull : JsonV → Bool
  | .null => true
  | _ => false

/-- Does a property exist and hold a value that is neither undefined nor
null.  Embeds checks of the form x !== undefined && x !== null. -/
def hasNonNull : Option JsonV → Bool
  | some v => !(isNull v)
  | none => false

/-- Lower-casing on character lists.  Lean library string functions are
avoided throughout because their implementations do not reduce in the
kernel; all string operations used by the embedding are structural
recursions over the character list. -/
def lowerL (l : List Char) : List Char := l.map Char.toLower

/-- Whitespace trim on character lists, both ends. -/
def trimL (l : List Char) : List Char :=
  ((l.dropWhile Char.isWhitespace).reverse.dropWhile Char.isWhitespace).reverse

/-- Model of the JavaScript toLowerCase method. -/
def jsToLower (s : String) : String := ⟨lowerL s.data⟩

/-- Model of the JavaScript trim method. -/
def jsTrim (s : String) : String := ⟨trimL s.data⟩

/-- Does the pattern occur as a leading block of the list. -/
def startsL : List Char → List Char → Bool
  | [], _ => true
  | _ :: _, [] => false
  | a :: as, b :: bs => a == b && startsL as bs

/-- Does the pattern occur as a contiguous block anywhere in the list. -/
def containsL (pat : List Char) : List Char → Bool
  | [] => startsL pat []
  | c :: rest => startsL pat (c :: rest) || containsL pat rest

/-- Model of the JavaScript includes method on strings. -/
def jsIncludes (s pat : String) : Bool := containsL pat.data s.data

/-- Model of the JavaScript startsWith method on strings. -/
def jsStartsWith (s pat : String) : Bool := startsL pat.data s.data

/-- Number of start positions at which the pattern occurs in the list. -/
def countOccL (pat : List Char) : List Char → Nat
  | [] => if startsL pat [] then 1 else 0
  | c :: rest => (if startsL pat (c :: rest) then 1 else 0) + countOccL pat rest

/-- Number of occurrences of a pattern inside a string, counted by start
position.  Used to state that a marker appears exactly once. -/
def countOcc (s pat : String) : Nat := countOccL pat.data s.data

mutual

/-- Model of the JavaScript String() coercion on a defined value. -/
def jsString : JsonV → String
  | .null => "null"
  | .bool true => "true"
  | .bool false => "false"
  | .num n => toString n
  | .str s => s
  | .arr l => jsStringList l
  | .obj _ => "[object Object]"

/-- Array-to-string join with commas, as Array.prototype.toString does;
null elements render as the empty string. -/
def jsStringList : List JsonV → String
  | [] => ""
  | [.null] => ""
  | [v] => jsString v
  | .null :: rest => "," ++ jsStringList rest
  | v :: rest => jsString v ++ "," ++ jsStringList rest

end

/-- Coercion of a possibly undefined value, as a template literal does. -/
def jsStringO : Option JsonV → String
  | none => "undefined"
  | some v => jsString v

/-- A defined value out of an Option, with null for undefined.  Used only
after a truthiness guard has established the Option holds a defined value. -/
def jvOf (o : Option JsonV) : JsonV := o.getD .null

/-- The JavaScript or chain over raw property reads ending in a defined
default, returning the first truthy value. -/
def jsOrV (o : Option JsonV) (d : JsonV) : JsonV :=
  match o with
  | some v => if truthy v then v else d
  | none => d

/-! ## extractAttioValue (attribute-mapping.server.ts lines 10 to 72) -/

/-- Embeds the name-attribute branch of extractAttioValue, lines 28 to 35 of
attribute-mapping.server.ts: full_name if truthy, else the two-part
template-literal name trimmed, else the first truthy of first or last name
coerced to a string. -/
def extractNamePart (entry : JsonV) : JsonV :=
  if otruthy (jget entry "full_name") then
    .str (jsString (jvOf (jget entry "full_name")))
  else if otruthy (jget entry "first_name") && otruthy (jget entry "last_name") then
    .str (jsTrim (jsStringO (jget entry "first_name") ++ " " ++ jsStringO (jget entry "last_name")))
  else
    .str (jsString (jsOrV (jget entry "first_name") (jsOrV (jget entry "last_name") (.str ""))))

/-- Embeds the array-entry branch of extractAttioValue, lines 14 to 49 of
attribute-mapping.server.ts.  Note the final fallback returns the raw
truthy title, name or label value without a String() coercion. -/
def extractEntry (entry : JsonV) : JsonV :=
  if otruthy (ojget (ojget (some entry) "option") "title") then
    .str (jsString (jvOf (ojget (ojget (some entry) "option") "title")))
  else if hasNonNull (jget entry "value") then
    .str (jsString (jvOf (jget entry "value")))
  else if otruthy (jget entry "first_name") || otruthy (jget entry "last_name") then
    extractNamePart entry
  else if otruthy (jget entry "email_address") then
    .str (jsString (jvOf (jget entry "email_address")))
  else if otruthy (jget entry "phone_number") then
    .str (jsString (jvOf (jget entry "phone_number")))
  else
    jsOrV (jget entry "title") (jsOrV (jget entry "name") (jsOrV (jget entry "label") .null))

/-- Embeds the plain-object branch of extractAttioValue, lines 56 to 69 of
attribute-mapping.server.ts: value, title, name, label, each accepted only
when its value is a string. -/
def extractObjCase (d : JsonV) : JsonV :=
  match jget d "value" with
  | some (.str s) => .str s
  | _ =>
    match jget d "title" with
    | some (.str s) => .str s
    | _ =>
      match jget d "name" with
      | some (.str s) => .str s
      | _ =>
        match jget d "label" with
        | some (.str s) => .str s
        | _ => .null

/-- Embeds extractAttioValue of attribute-mapping.server.ts, lines 10 to 72.
A falsy input returns null; a non-empty array is handled entry-wise; strings
and numbers are coerced; other objects (including the empty array, which is
truthy and of typeof object in JavaScript) go through the key fallbacks;
booleans fall through to null. -/
def extractAttioValue (attioData : JsonV) : JsonV :=
  if truthy attioData = false then .null
  else
    match attioData with
    | .arr (entry :: _) => extractEntry entry
    | .str s => .str s
    | .num n => .str (jsString (.num n))
    | .arr [] => extractObjCase (.arr [])
    | .obj fields => extractObjCase (.obj fields)
    | _ => .null

/-! ## Apollo call payloads and the request trace -/

/-- Payload of a contact create or update request, sync-to-apollo.server.ts.
Fields are present (some) when the source sets the key; a present field may
hold the JavaScript null. -/
structure ContactPayload where
  email : Option JsonV := none
  first_name : Option JsonV := none
  last_name : Option JsonV := none
  stage : Option JsonV := none
  title : Option JsonV := none
  organization_name : Option JsonV := none
  linkedin_url : Option JsonV := none
  twitter_url : Option JsonV := none
  facebook_url : Option JsonV := none
  instagram_url : Option JsonV := none
  bio : Option JsonV := none
deriving Repr

/-- Payload of an account create or update request,
sync-company-to-apollo.server.ts. -/
structure AccountPayload where
  name : Option JsonV := none
  website_url : Option JsonV := none
  linkedin_url : Option JsonV := none
  twitter_url : Option JsonV := none
  facebook_url : Option JsonV := none
  instagram_url : Option JsonV := none
  description : Option JsonV := none
  industry : Option JsonV := none
  estimated_num_employees : Option JsonV := none
  city : Option JsonV := none
  state : Option JsonV := none
  country : Option JsonV := none
deriving Repr

/-- Payload of an opportunity create or update request, the deal sync
module. -/
structure OppPayload where
  name : Option JsonV := none
  account_id : Option JsonV := none
  account_name : Option JsonV := none
  amount : Option JsonV := none
  stage_name : Option JsonV := none
  stage_id : Option JsonV := none
  probability : Option JsonV := none
  close_date : Option JsonV := none
  description : Option JsonV := none
deriving Repr

/-- One HTTP request issued to the Apollo platform.  Each sync embedding
returns, besides its result, the ordered list of these requests. -/
inductive ApolloCall where
  | listContactStages
  | listOpportunityStages
  | searchContacts (q : JsonV)
  | updateContact (id : String) (payload : ContactPayload)
  | createContact (payload : ContactPayload)
  | searchAccounts (nm : Option JsonV)
  | updateAccount (id : String) (payload : AccountPayload)
  | createAccount (payload : AccountPayload)
  | searchOpportunities (q : JsonV)
  | updateOpportunity (id : String) (payload : OppPayload)
  | createOpportunity (payload : OppPayload)
  | lookupOrganizationId (companyRecordId : JsonV)
deriving Repr

/-! ## Stage mapping (stage-mapping.server.ts and the opportunity stage
mapping module) -/

/-- A remote Apollo stage record, reduced to the two fields the source
caches (id and name). -/
structure ApolloStage where
  id : String
  name : String
deriving Repr, DecidableEq

/-- Embeds normalizeStage: null for a falsy input (null, undefined or the
empty string), else trim then lower-case. -/
def normalizeStage : Option String → Option String
  | none => none
  | some s => if s = "" then none else some (jsToLower (jsTrim s))

/-- Result of a stage-list fetch through the module cache: the resolved
stage list, the cache afterwards, and the Apollo requests issued. -/
structure StageFetchOut where
  stages : List ApolloStage
  cache : Option (List ApolloStage)
  calls : List ApolloCall
deriving Repr

/-- Embeds getApolloStages, lines 17 to 31 of stage-mapping.server.ts: a
non-null cache (even an empty list, which is truthy) is returned without a
network call; otherwise the list endpoint is called, the cache set on
success, and a failure is swallowed, yielding the empty list with the cache
left unset. -/
def getApolloStages (cache : Option (List ApolloStage))
    (fetched : Except String (List ApolloStage)) : StageFetchOut :=
  match cache with
  | some l => ⟨l, some l, []⟩
  | none =>
    match fetched with
    | .ok stages => ⟨stages, some stages, [.listContactStages]⟩
    | .error _ => ⟨[], none, [.listContactStages]⟩

/-- Embeds getApolloOpportunityStages, same shape as getApolloStages but
against the opportunity stage endpoint and its own cache. -/
def getApolloOpportunityStages (cache : Option (List ApolloStage))
    (fetched : Except String (List ApolloStage)) : StageFetchOut :=
  match cache with
  | some l => ⟨l, some l, []⟩
  | none =>
    match fetched with
    | .ok stages => ⟨stages, some stages, [.listOpportunityStages]⟩
    | .error _ => ⟨[], none, [.listOpportunityStages]⟩

/-- The static manual contact-stage mapping table; empty in the source. -/
def STAGE_NAME_MAPPING : List (String × String) := []

/-- The static manual deal-stage mapping table, lines 252 to 270 of the
opportunity stage mapping module. -/
def OPPORTUNITY_STAGE_NAME_MAPPING : List (String × String) :=
  [("NS/Reschedule", "NS/Reschedule"),
   ("Discovery Call Booked", "Discovery Call Booked"),
   ("Proposal Sent", "Proposal Sent"),
   ("Negotiation", "Negotiation"),
   ("Contract Sent", "Contract Sent"),
   ("Closed Won", "Closed Won"),
   ("Closed Lost", "Closed Lost"),
   ("On Hold", "On Hold"),
   ("ns/reschedule", "NS/Reschedule"),
   ("discovery call booked", "Discovery Call Booked"),
   ("proposal sent", "Proposal Sent"),
   ("negotiation", "Negotiation"),
   ("contract sent", "Contract Sent"),
   ("closed won", "Closed Won"),
   ("closed lost", "Closed Lost"),
   ("on hold", "On Hold")]

/-- Bracket lookup in a static string table; undefined when absent. -/
def tableGet (tbl : List (String × String)) (k : String) : Option String := tbl.lookup k

/-- Truthiness of a string-or-null value: false for null and the empty
string. -/
def jsTruthyStrOpt : Option String → Bool
  | none => false
  | some s => s != ""

/-- The JavaScript or operator on string-or-undefined values. -/
def jsOrS (a b : Option String) : Option String :=
  match a with
  | some s => if s != "" then some s else b
  | none => b

/-- The exact-match predicate of both stage finders: the normalized remote
stage name triple-equals the normalized search value. -/
def stageExactPred (normalized : Option String) (s : ApolloStage) : Bool :=
  normalizeStage (some s.name) == normalized

/-- The contact-stage substring predicate, lines 68 to 71 of
stage-mapping.server.ts, with the JavaScript defaulting of a null side to
the empty string. -/
def stagePartialPred (normalized : Option String) (s : ApolloStage) : Bool :=
  (match normalizeStage (some s.name) with
   | none => false
   | some sn => jsIncludes sn (normalized.getD ""))
  || (match normalized with
      | none => false
      | some nn => jsIncludes nn ((normalizeStage (some s.name)).getD ""))

/-- Embeds findApolloStageIdByName, lines 53 to 79 of
stage-mapping.server.ts: exact case-insensitive match first, then the
substring match, else null. -/
def findApolloStageIdByName (stages : List ApolloStage) (stageName : String) : Option String :=
  let normalized := normalizeStage (some stageName)
  match stages.find? (stageExactPred normalized) with
  | some exactMatch => some exactMatch.id
  | none =>
    match stages.find? (stagePartialPred normalized) with
    | some partialMatch => some partialMatch.id
    | none => none

/-- The opportunity-stage substring predicate, lines 302 to 305 of the
opportunity stage mapping module; a remote name normalizing to null or the
empty string is falsy and never matches. -/
def oppPartialPred (ns : String) (s : ApolloStage) : Bool :=
  match normalizeStage (some s.name) with
  | none => false
  | some sn => sn != "" && (jsIncludes sn ns || jsIncludes ns sn)

/-- Embeds findApolloOpportunityStageIdByName, lines 283 to 313: an empty
stage list or a search value normalizing to null or empty short-circuits to
null, then exact match, then substring match. -/
def findApolloOpportunityStageIdByName (stages : List ApolloStage) (stageName : String) :
    Option String :=
  if stages.isEmpty then none
  else
    match normalizeStage (some stageName) with
    | none => none
    | some ns =>
      if ns = "" then none
      else
        match stages.find? (stageExactPred (some ns)) with
        | some exactMatch => some exactMatch.id
        | none =>
          match stages.find? (oppPartialPred ns) with
          | some partialMatch => some partialMatch.id
          | none => none

/-- Embeds the stage-id heuristic of both mapping modules: longer than 20
characters and entirely ASCII alphanumeric. -/
def isApolloIdLike (s : String) : Bool :=
  decide (s.data.length > 20) && s.data.all Char.isAlphanum

/-- Result of a stage-mapping call: the mapped value, the module cache
afterwards, and the Apollo requests issued along the way. -/
structure StageMapOut where
  result : Option String
  cache : Option (List ApolloStage)
  calls : List ApolloCall
deriving Repr

/-- Embeds mapStageToApollo, lines 85 to 111 of stage-mapping.server.ts.
A falsy input is returned as-is; then the (empty) manual table, then the
direct name lookup, then the stage-id heuristic, else the original value is
passed through.  The fetch oracle holds what the stage-list endpoint would
return during this call. -/
def mapStageToApollo (cache : Option (List ApolloStage))
    (fetched : Except String (List ApolloStage)) (attioStage : Option String) : StageMapOut :=
  match attioStage with
  | none => ⟨none, cache, []⟩
  | some stg =>
    if stg = "" then ⟨some stg, cache, []⟩
    else
      let mappedName := jsOrS (tableGet STAGE_NAME_MAPPING stg)
        (tableGet STAGE_NAME_MAPPING ((normalizeStage (some stg)).getD ""))
      let step1 : Option String × Option (List ApolloStage) × List ApolloCall :=
        match mappedName with
        | some mn =>
          if mn != "" then
            let g := getApolloStages cache fetched
            (findApolloStageIdByName g.stages mn, g.cache, g.calls)
          else (none, cache, [])
        | none => (none, cache, [])
      if jsTruthyStrOpt step1.1 then ⟨step1.1, step1.2.1, step1.2.2⟩
      else
        let g2 := getApolloStages step1.2.1 fetched
        let r2 := findApolloStageIdByName g2.stages stg
        if jsTruthyStrOpt r2 then ⟨r2, g2.cache, step1.2.2 ++ g2.calls⟩
        else if isApolloIdLike stg then ⟨some stg, g2.cache, step1.2.2 ++ g2.calls⟩
        else ⟨some stg, g2.cache, step1.2.2 ++ g2.calls⟩

/-- One manual-table probe of mapDealStageToApollo: a truthy table entry
triggers a stage-list resolution and the lookup of the mapped name. -/
def oppManualStep (cache : Option (List ApolloStage))
    (fetched : Except String (List ApolloStage)) (key : String) :
    Option String × Option (List ApolloStage) × List ApolloCall :=
  match tableGet OPPORTUNITY_STAGE_NAME_MAPPING key with
  | some mn =>
    if mn != "" then
      let g := getApolloOpportunityStages cache fetched
      (findApolloOpportunityStageIdByName g.stages mn, g.cache, g.calls)
    else (none, cache, [])
  | none => (none, cache, [])

/-- The normalized manual-table probe, run only when the normalized form is
truthy and differs from the trimmed one. -/
def oppNormalizedStep (cache : Option (List ApolloStage))
    (fetched : Except String (List ApolloStage)) (trimmedStage : String) :
    Option String × Option (List ApolloStage) × List ApolloCall :=
  match normalizeStage (some trimmedStage) with
  | some nz =>
    if nz != "" && nz != trimmedStage then oppManualStep cache fetched nz
    else (none, cache, [])
  | none => (none, cache, [])

/-- Embeds mapDealStageToApollo, lines 319 to 367 of the opportunity stage
mapping module: falsy passthrough, trim, stage-id heuristic, exact manual
table entry, normalized manual table entry (only when the normalized form
differs from the trimmed one), direct lookup, else the trimmed value. -/
def mapDealStageToApollo (cache : Option (List ApolloStage))
    (fetched : Except String (List ApolloStage)) (attioStage : Option String) : StageMapOut :=
  match attioStage with
  | none => ⟨none, cache, []⟩
  | some stg =>
    if stg = "" then ⟨some stg, cache, []⟩
    else
      let trimmedStage := jsTrim stg
      if isApolloIdLike trimmedStage then ⟨some trimmedStage, cache, []⟩
      else
        let step1 := oppManualStep cache fetched trimmedStage
        if jsTruthyStrOpt step1.1 then ⟨step1.1, step1.2.1, step1.2.2⟩
        else
          let step2 := oppNormalizedStep step1.2.1 fetched trimmedStage
          if jsTruthyStrOpt step2.1 then ⟨step2.1, step2.2.1, step1.2.2 ++ step2.2.2⟩
          else
            let g3 := getApolloOpportunityStages step2.2.1 fetched
            let r3 := findApolloOpportunityStageIdByName g3.stages trimmedStage
            if jsTruthyStrOpt r3 then ⟨r3, g3.cache, step1.2.2 ++ step2.2.2 ++ g3.calls⟩
            else ⟨some trimmedStage, g3.cache, step1.2.2 ++ step2.2.2 ++ g3.calls⟩

/-- Builds the field list of a flat object holding the given optional
string-valued candidate keys. -/
def strField (k : String) : Option String → List (String × JsonV)
  | none => []
  | some s => [(k, JsonV.str s)]

/-- A flat object with optional string fields value, title, name, label. -/
def mkFlatObj (v t n l : Option String) : JsonV :=
  .obj (strField "value" v ++ strField "title" t ++ strField "name" n ++ strField "label" l)

/-- The first present candidate in the order value, title, name, label. -/
def firstFieldStr (v t n l : Option String) : Option String :=
  v.orElse fun _ => t.orElse fun _ => n.orElse fun _ => l

/-- A string option as a JavaScript value, null when absent. -/
def jsonOfStrOpt : Option String → JsonV
  | some s => .str s
  | none => .null

/-! ## extractAttioAttributes (attribute-mapping.server.ts lines 99 to 193) -/

/-- The collected Apollo field assignments of extractAttioAttributes.  A
field is some v when the source sets the key (possibly to null), none when
the key is never set. -/
structure ApolloFields where
  title : Option JsonV := none
  organization_name : Option JsonV := none
  linkedin_url : Option JsonV := none
  twitter_url : Option JsonV := none
  facebook_url : Option JsonV := none
  instagram_url : Option JsonV := none
  bio : Option JsonV := none
deriving Repr

/-- Drop every leading slash, as the replace of the leading-slash regex
pattern with the plus quantifier does. -/
def stripLeadingSlashes (s : String) : String := ⟨s.data.dropWhile (· == '/')⟩

/-- Drop one leading at-sign, as the replace of the anchored at-sign regex
pattern does. -/
def stripLeadingAt (s : String) : String :=
  match s.data with
  | '@' :: rest => ⟨rest⟩
  | _ => s

/-- The LinkedIn URL normalization, lines 124 to 130 of
attribute-mapping.server.ts. -/
def urlOfLinkedin (s : String) : String :=
  if jsStartsWith s "http" then s
  else if jsStartsWith s "linkedin.com" || jsStartsWith s "/" then
    "https://" ++ stripLeadingSlashes s
  else "https://linkedin.com/in/" ++ s

/-- The Twitter URL normalization, lines 138 to 144. -/
def urlOfTwitter (s : String) : String :=
  if jsStartsWith s "http" then s
  else if jsStartsWith s "twitter.com" || jsStartsWith s "x.com" then "https://" ++ s
  else "https://twitter.com/" ++ stripLeadingAt s

/-- The Facebook URL normalization, lines 152 to 156. -/
def urlOfFacebook (s : String) : String :=
  if jsStartsWith s "http" then s else "https://facebook.com/" ++ s

/-- The Instagram URL normalization, lines 164 to 168. -/
def urlOfInstagram (s : String) : String :=
  if jsStartsWith s "http" then s else "https://instagram.com/" ++ s

/-- Embeds extractAttioAttributes, lines 99 to 193 of
attribute-mapping.server.ts.  Each source field is read under a truthiness
guard; the URL fields invoke startsWith on the extracted value, which
throws a TypeError at runtime when extraction produced a truthy non-string,
modelled as an error result.  The primary_location branch extracts and then
assigns nothing, so it is omitted. -/
def extractAttioAttributes (attioValues : JsonV) : Except String ApolloFields := do
  let mut fields : ApolloFields := {}
  if otruthy (jget attioValues "job_title") then
    fields := { fields with title := some (extractAttioValue (jvOf (jget attioValues "job_title"))) }
  if otruthy (jget attioValues "company") then
    let companyValue := extractAttioValue (jvOf (jget attioValues "company"))
    if truthy companyValue then
      fields := { fields with organization_name := some companyValue }
  if otruthy (jget attioValues "linkedin") then
    let linkedinValue := extractAttioValue (jvOf (jget attioValues "linkedin"))
    if truthy linkedinValue then
      match linkedinValue with
      | .str s => fields := { fields with linkedin_url := some (.str (urlOfLinkedin s)) }
      | _ => throw "TypeError: linkedinValue.startsWith is not a function"
  if otruthy (jget attioValues "twitter") then
    let twitterValue := extractAttioValue (jvOf (jget attioValues "twitter"))
    if truthy twitterValue then
      match twitterValue with
      | .str s => fields := { fields with twitter_url := some (.str (urlOfTwitter s)) }
      | _ => throw "TypeError: twitterValue.startsWith is not a function"
  if otruthy (jget attioValues "facebook") then
    let facebookValue := extractAttioValue (jvOf (jget attioValues "facebook"))
    if truthy facebookValue then
      match facebookValue with
      | .str s => fields := { fields with facebook_url := some (.str (urlOfFacebook s)) }
      | _ => throw "TypeError: facebookValue.startsWith is not a function"
  if otruthy (jget attioValues "instagram") then
    let instagramValue := extractAttioValue (jvOf (jget attioValues "instagram"))
    if truthy instagramValue then
      match instagramValue with
      | .str s => fields := { fields with instagram_url := some (.str (urlOfInstagram s)) }
      | _ => throw "TypeError: instagramValue.startsWith is not a function"
  if otruthy (jget attioValues "description") then
    fields := { fields with bio := some (extractAttioValue (jvOf (jget attioValues "description"))) }
  return fields

/-! ## syncToApollo (sync-to-apollo.server.ts lines 17 to 462) -/

/-- An Apollo contact search result, reduced to the fields the source
reads. -/
structure ApolloContact where
  id : Option String := none
  email : Option String := none
  first_name : Option String := none
  last_name : Option String := none
deriving Repr, DecidableEq

/-- The created and updated counters returned by each sync. -/
structure SyncResult where
  created : Nat
  updated : Nat
deriving Repr, DecidableEq

/-- A field included only when it is neither undefined nor null (the guard
used when building the contact update payload). -/
def presentNonNull : Option JsonV → Option JsonV
  | some v => if isNull v then none else some v
  | none => none

/-- The JavaScript value-or-null defaulting used in the contact create
payload. -/
def jsOrNull : Option JsonV → JsonV
  | some v => if truthy v then v else .null
  | none => .null

/-- The stage field of the contact update payload: included only when the
mapped stage is neither null, undefined nor the empty string. -/
def stageFieldOf : Option String → Option JsonV
  | some s => if s != "" then some (.str s) else none
  | none => none

/-- Embeds the fetched-record guard: the data property of the Attio
response when truthy. -/
def dataOf (attioRecord : Option JsonV) : Option JsonV :=
  let d := ojget attioRecord "data"
  if otruthy d then d else none

/-- Embeds the values-or-empty-object default on the fetched record. -/
def valuesOf (attioRecord : Option JsonV) : JsonV :=
  jsOrJ (ojget (dataOf attioRecord) "values") (.obj [])

/-- Embeds the attributes-or-attribute_values-or-empty-object default on
the fetched record. -/
def attributesOf (attioRecord : Option JsonV) : JsonV :=
  jsOrJ (jsOrO (ojget (dataOf attioRecord) "attributes")
    (ojget (dataOf attioRecord) "attribute_values")) (.obj [])

/-- Embeds the email extraction of lines 75 to 76: first entry of the
email_addresses array (defaulted to empty), optional-chained to its
email_address property. -/
def emailOf (values : JsonV) : Option JsonV :=
  ojget (jsIndex (jsOrJ (jget values "email_addresses") (.arr [])) 0) "email_address"

/-- Embeds the first- and last-name extraction of lines 85 to 109: the
first entry of a non-empty name array, else a plain name object, each field
defaulted to null. -/
def personNamesOf (values : JsonV) : JsonV × JsonV :=
  match jget values "name" with
  | some (.arr (entry :: _)) =>
    (jsOrV (jget entry "first_name") .null, jsOrV (jget entry "last_name") .null)
  | some (.obj fs) =>
    (jsOrV (jget (.obj fs) "first_name") .null, jsOrV (jget (.obj fs) "last_name") .null)
  | _ => (.null, .null)

/-- Number of own enumerable keys, as Object.keys().length: object field
count, array length, string length, zero otherwise. -/
def jsKeysCount : JsonV → Nat
  | .obj fs => fs.length
  | .arr l => l.length
  | .str s => s.data.length
  | _ => 0

/-- Embeds the stage-data or-chain of lines 132 to 155: the candidate keys
read off values, then (when that chain is falsy and the attributes object
has keys) the candidate keys read off attributes. -/
def stageDataOf (values attributes : JsonV) : Option JsonV :=
  let c1 :=
    jsOrO (jget values "status") (jsOrO (jget values "Status") (jsOrO (jget values "status")
      (jsOrO (jget values "Status")
        (jsOrO (jget values "0357b938-75b6-4dc2-ab04-ff5fe6f4d9d6")
          (jsOrO (jget values "Stage") (jsOrO (jget values "stage")
            (jsOrO (jget values "lifecycle_stage")
              (jsOrO (jget values "Stage") (jget values "stage")))))))))
  let c2 :=
    jsOrO (jget attributes "status") (jsOrO (jget attributes "Status")
      (jsOrO (jget attributes "status") (jsOrO (jget attributes "Status")
        (jsOrO (jget attributes "0357b938-75b6-4dc2-ab04-ff5fe6f4d9d6")
          (jsOrO (jget attributes "Stage") (jget attributes "stage"))))))
  if otruthy c1 = false && decide (jsKeysCount attributes > 0) then c2 else c1

/-- Embeds lines 170 to 230: the stage name extracted from truthy stage
data.  An array entry prefers the tagged option title and falls back to the
raw title, name, value or label; a plain object likewise; a string is taken
as-is (the UUID test on it only changes logging); anything else yields
null. -/
def stageNameFromData : JsonV → JsonV
  | .arr (stageEntry :: _) =>
    if otruthy (ojget (ojget (some stageEntry) "option") "title") then
      jvOf (ojget (ojget (some stageEntry) "option") "title")
    else
      jsOrV (jget stageEntry "title") (jsOrV (jget stageEntry "name")
        (jsOrV (jget stageEntry "value") (jsOrV (jget stageEntry "label") .null)))
  | .str s => .str s
  | .obj fs =>
    if otruthy (ojget (jget (.obj fs) "option") "title") then
      jvOf (ojget (jget (.obj fs) "option") "title")
    else
      jsOrV (jget (.obj fs) "title") (jsOrV (jget (.obj fs) "name")
        (jsOrV (jget (.obj fs) "value") (jsOrV (jget (.obj fs) "label") .null)))
  | _ => .null

/-- The key filter of the fallback scan, line 237: the lower-cased key
contains stage or lifecycle, or equals status. -/
def stageKeyMatches (key : String) : Bool :=
  jsIncludes (jsToLower key) "stage" || jsIncludes (jsToLower key) "lifecycle"
    || jsToLower key == "status"

/-- The per-value extraction of the fallback scan, lines 243 to 257. -/
def stageScanExtract : JsonV → JsonV
  | .arr (entry :: _) =>
    jsOrV (ojget (ojget (some entry) "option") "title") (jsOrV (jget entry "title")
      (jsOrV (jget entry "name") (jsOrV (jget entry "value") (jsOrV (jget entry "label") .null))))
  | .str s => .str s
  | .obj fs =>
    jsOrV (ojget (jget (.obj fs) "option") "title") (jsOrV (jget (.obj fs) "title")
      (jsOrV (jget (.obj fs) "name") (jsOrV (jget (.obj fs) "value")
        (jsOrV (jget (.obj fs) "label") .null))))
  | _ => .null

/-- Embeds the fallback key scan, lines 235 to 260: iterate the values keys
in order, and on each stage-like key with a truthy value, extract while the
accumulated name is still falsy. -/
def stageScanFold (fields : List (String × JsonV)) : JsonV :=
  fields.foldl
    (fun acc kv =>
      if stageKeyMatches kv.1 && truthy kv.2 && !(truthy acc) then stageScanExtract kv.2 else acc)
    .null

/-- The final extracted stage name of lines 124 to 264: from truthy stage
data when present, else from the fallback key scan over the values
object. -/
def attioStageNameOf (values attributes : JsonV) : JsonV :=
  let sd := stageDataOf values attributes
  if otruthy sd then stageNameFromData (jvOf sd)
  else
    match values with
    | .obj fs => stageScanFold fs
    | _ => .null

/-- Embeds the observable effect of validateStageMapping (stage-mapping
module lines 155 to 184) when called with a stage name and a null second
argument, as syncToApollo does: a truthy stage name triggers one further
mapStageToApollo call whose cache update and issued requests are the only
observable outcome (its warnings are only logged). -/
def validateStageMappingEffects (cache : Option (List ApolloStage))
    (fetched : Except String (List ApolloStage)) (attioStage : Option String) :
    Option (List ApolloStage) × List ApolloCall :=
  match attioStage with
  | none => (cache, [])
  | some s =>
    if s = "" then (cache, [])
    else
      let m := mapStageToApollo cache fetched (some s)
      (m.cache, m.calls)

/-- Embeds syncToApollo, sync-to-apollo.server.ts lines 17 to 462.
Parameters: the Attio fetch response, the stage-list cache and fetch
oracle, and the contact search response (returned identically by the
post-update verification search, whose response is only logged).  Returns
the thrown-or-returned result and the ordered Apollo request trace.  The
stage mapping throws a TypeError when the extracted stage name is a truthy
non-string, since the source calls trim on it; the update and create
responses are only logged, so they are not parameters. -/
def syncToApollo (attioRecord : Option JsonV)
    (stageCache : Option (List ApolloStage)) (stageFetch : Except String (List ApolloStage))
    (searchResp : List ApolloContact) : Except String SyncResult × List ApolloCall :=
  match dataOf attioRecord with
  | none => (.error "Failed to fetch Attio record", [])
  | some _ =>
    let values := valuesOf attioRecord
    let attributes := attributesOf attioRecord
    let email := emailOf values
    if otruthy email = false then
      (.error "No email address found. Email is required for syncing.", [])
    else
      let names := personNamesOf values
      let attioStageName := attioStageNameOf values attributes
      let stageStep : Except String (Option String × Option (List ApolloStage) × List ApolloCall) :=
        if truthy attioStageName then
          match attioStageName with
          | .str s =>
            let m := mapStageToApollo stageCache stageFetch (some s)
            let ve := validateStageMappingEffects m.cache stageFetch (some s)
            .ok (m.result, ve.1, m.calls ++ ve.2)
          | _ => .error "TypeError: attioStage.trim is not a function"
        else .ok (none, stageCache, [])
      match stageStep with
      | .error e => (.error e, [])
      | .ok (apolloStage, _, stageCalls) =>
        match extractAttioAttributes values with
        | .error e => (.error e, stageCalls)
        | .ok fields =>
          let searchCall := ApolloCall.searchContacts (jvOf email)
          match searchResp with
          | existingContact :: _ =>
            if jsTruthyStrOpt existingContact.id = false then
              (.error "Found Apollo contact but missing ID", stageCalls ++ [searchCall])
            else
              let updateData : ContactPayload :=
                { email := some (jvOf email)
                  first_name := some names.1
                  last_name := some names.2
                  stage := stageFieldOf apolloStage
                  title := presentNonNull fields.title
                  organization_name := presentNonNull fields.organization_name
                  linkedin_url := presentNonNull fields.linkedin_url
                  twitter_url := presentNonNull fields.twitter_url
                  facebook_url := presentNonNull fields.facebook_url
                  instagram_url := presentNonNull fields.instagram_url
                  bio := presentNonNull fields.bio }
              (.ok ⟨0, 1⟩,
                stageCalls
                  ++ [searchCall, .updateContact (existingContact.id.getD "") updateData, searchCall])
          | [] =>
            let createData : ContactPayload :=
              { email := some (jvOf email)
                first_name := some names.1
                last_name := some names.2
                stage := some (jsonOfStrOpt apolloStage)
                title := some (jsOrNull fields.title)
                organization_name := some (jsOrNull fields.organization_name)
                linkedin_url := some (jsOrNull fields.linkedin_url)
                twitter_url := some (jsOrNull fields.twitter_url)
                facebook_url := some (jsOrNull fields.facebook_url)
                instagram_url := some (jsOrNull fields.instagram_url)
                bio := some (jsOrNull fields.bio) }
            (.ok ⟨1, 0⟩, stageCalls ++ [searchCall, .createContact createData])

/-- Embeds onRecordUpdated, record.updated.event.ts lines 7 to 43: a
non-people event is skipped; otherwise the sync runs inside a try block
whose catch logs and deliberately swallows every error. -/
def onRecordUpdated (eventObject : String) (attioRecord : Option JsonV)
    (stageCache : Option (List ApolloStage)) (stageFetch : Except String (List ApolloStage))
    (searchResp : List ApolloContact) : Except String Unit × List ApolloCall :=
  if eventObject != "people" then (.ok (), [])
  else
    let out := syncToApollo attioRecord stageCache stageFetch searchResp
    match out.1 with
    | .ok _ => (.ok (), out.2)
    | .error _ => (.ok (), out.2)

/-! ## syncDealToApollo and its helpers (the deal sync module) -/

/-- An Apollo opportunity search result, reduced to the fields the source
reads. -/
structure ApolloOpp where
  id : Option String := none
  name : Option String := none
  description : Option String := none
  account_id : Option String := none
deriving Repr, DecidableEq

/-- Strict equality of a raw property against a string literal. -/
def jsEqStr (o : Option JsonV) (s : String) : Bool :=
  match o with
  | some (.str t) => t == s
  | _ => false

/-- Accumulating decimal digit parse; fails on any non-digit. -/
def digitsToNatAux : List Char → Nat → Option Nat
  | [], acc => some acc
  | c :: rest, acc =>
    if c.isDigit then digitsToNatAux rest (acc * 10 + (c.toNat - 48)) else none

/-- Model of the JavaScript Number() coercion on strings: the empty or
all-whitespace string is zero, an optionally signed run of digits is its
value, and any other form is NaN (none).  Fractional and exponent forms are
modelled as NaN; no claim depends on them. -/
def jsParseNum (s : String) : Option Int :=
  match trimL s.data with
  | [] => some 0
  | '-' :: rest =>
    match rest with
    | [] => none
    | _ => (digitsToNatAux rest 0).map fun n => -(n : Int)
  | '+' :: rest =>
    match rest with
    | [] => none
    | _ => (digitsToNatAux rest 0).map fun n => (n : Int)
  | l => (digitsToNatAux l 0).map fun n => (n : Int)

/-- Model of the JavaScript Number() coercion: none is NaN.  The empty
array coerces to zero; other arrays and objects coerce through their string
form, which the embedded modules never exercise, so they are modelled as
NaN. -/
def jsToNumber : JsonV → Option Int
  | .null => some 0
  | .bool b => some (if b then 1 else 0)
  | .num n => some n
  | .str s => jsParseNum s
  | .arr [] => some 0
  | .arr (_ :: _) => none
  | .obj _ => none

/-- One keyed numeric probe of extractNumberValue: present and non-null,
coerced with Number, accepted unless NaN. -/
def numFromKey (o : JsonV) (k : String) : Option Int :=
  if hasNonNull (jget o k) then
    match jsToNumber (jvOf (jget o k)) with
    | some n => some n
    | none => none
  else none

/-- The four-probe chain of the deal extractNumberValue, lines 482 to 511
and 529 to 554 of the deal sync module: currency_value under the currency
attribute type, then value, then numeric_value, then amount; a NaN result
falls through to the next probe. -/
def numberChain (o : JsonV) : Option Int :=
  (if jsEqStr (jget o "attribute_type") "currency" then numFromKey o "currency_value" else none)
    <|> numFromKey o "value" <|> numFromKey o "numeric_value" <|> numFromKey o "amount"

/-- Currency symbol and comma removal then trim, line 520 of the deal sync
module. -/
def cleanAmountStr (s : String) : String :=
  jsTrim ⟨s.data.filter fun c => !(c == '$' || c == ',' || c == '€' || c == '£' || c == '¥')⟩

/-- Embeds the deal extractNumberValue, lines 478 to 558: falsy input is
null; a non-empty array probes its first entry and, failing that, falls
through to the object probes on the array itself (which have no keys and
yield null); numbers pass through; strings are cleaned and coerced; objects
run the probe chain; anything else is null. -/
def extractNumberValueDeal (attioData : Option JsonV) : Option Int :=
  if otruthy attioData = false then none
  else
    let v := jvOf attioData
    let arrPart : Option Int :=
      match v with
      | .arr (entry :: _) => numberChain entry
      | _ => none
    match arrPart with
    | some n => some n
    | none =>
      match v with
      | .num n => some n
      | .str s =>
        match jsParseNum (cleanAmountStr s) with
        | some n => some n
        | none => none
      | .arr _ => numberChain v
      | .obj _ => numberChain v
      | _ => none

/-- The plain-object fallback of the deal extractAttioValue, lines 450 to
470: a tagged option title (only when option is a truthy object), then
value, title, name, label, every result String()-coerced and trimmed. -/
def dealObjCase (o : JsonV) : Option String :=
  let isObjectType : JsonV → Bool := fun w =>
    match w with
    | .arr _ => true
    | .obj _ => true
    | _ => false
  let step1 : Option String :=
    match jget o "option" with
    | some opt =>
      if truthy opt && isObjectType opt then
        if otruthy (jget opt "title") then some (jsTrim (jsString (jvOf (jget opt "title"))))
        else none
      else none
    | none => none
  match step1 with
  | some s => some s
  | none =>
    if hasNonNull (jget o "value") then some (jsTrim (jsString (jvOf (jget o "value"))))
    else if otruthy (jget o "title") then some (jsTrim (jsString (jvOf (jget o "title"))))
    else if otruthy (jget o "name") then some (jsTrim (jsString (jvOf (jget o "name"))))
    else if otruthy (jget o "label") then some (jsTrim (jsString (jvOf (jget o "label"))))
    else none

/-- Embeds the deal extractAttioValue, lines 416 to 473 of the deal sync
module: every branch String()-coerces and trims, so the result is a string
or null. -/
def extractAttioValueDeal (attioData : JsonV) : Option String :=
  if truthy attioData = false then none
  else
    match attioData with
    | .arr (entry :: _) =>
      if otruthy (ojget (ojget (some entry) "option") "title") then
        some (jsTrim (jsString (jvOf (ojget (ojget (some entry) "option") "title"))))
      else if hasNonNull (jget entry "value") then
        some (jsTrim (jsString (jvOf (jget entry "value"))))
      else if otruthy (jget entry "title") then
        some (jsTrim (jsString (jvOf (jget entry "title"))))
      else if otruthy (jget entry "name") then
        some (jsTrim (jsString (jvOf (jget entry "name"))))
      else if otruthy (jget entry "label") then
        some (jsTrim (jsString (jvOf (jget entry "label"))))
      else none
    | .str s => some (jsTrim s)
    | .num n => some (jsString (.num n))
    | .arr [] => dealObjCase (.arr [])
    | .obj fs => dealObjCase (.obj fs)
    | _ => none

/-- Embeds the deal-name extraction, lines 66 to 75: name falling back to
title, then the first array entry (or the object itself) probed for raw
name, value, title. -/
def dealNameOf (values : JsonV) : JsonV :=
  match jsOrO (jget values "name") (jget values "title") with
  | some (.arr (e :: _)) =>
    jsOrV (jget e "name") (jsOrV (jget e "value") (jsOrV (jget e "title") .null))
  | some (.str s) => .str s
  | some (.obj fs) =>
    jsOrV (jget (.obj fs) "name") (jsOrV (jget (.obj fs) "value")
      (jsOrV (jget (.obj fs) "title") .null))
  | _ => .null

/-- Embeds the deal-stage extraction, lines 103 to 134: a truthy stage
value probed for status title, option title, then value, each coerced and
trimmed. -/
def dealStageOf (values : JsonV) : Option String :=
  match jget values "stage" with
  | some sv =>
    if truthy sv = false then none
    else
      match sv with
      | .arr (stageEntry :: _) =>
        if otruthy (ojget (ojget (some stageEntry) "status") "title") then
          some (jsTrim (jsString (jvOf (ojget (ojget (some stageEntry) "status") "title"))))
        else if otruthy (ojget (ojget (some stageEntry) "option") "title") then
          some (jsTrim (jsString (jvOf (ojget (ojget (some stageEntry) "option") "title"))))
        else if otruthy (jget stageEntry "value") then
          some (jsTrim (jsString (jvOf (jget stageEntry "value"))))
        else none
      | .str s => some (jsTrim s)
      | .obj fs =>
        if otruthy (ojget (jget (.obj fs) "status") "title") then
          some (jsTrim (jsString (jvOf (ojget (jget (.obj fs) "status") "title"))))
        else if otruthy (ojget (jget (.obj fs) "option") "title") then
          some (jsTrim (jsString (jvOf (ojget (jget (.obj fs) "option") "title"))))
        else if otruthy (jget (.obj fs) "value") then
          some (jsTrim (jsString (jvOf (jget (.obj fs) "value"))))
        else none
      | _ => none
  | none => none

/-- Embeds the associated-company extraction, lines 163 to 179: the record
id (id.record_id falling back to id) and display name (name, title, value)
of the first company entry, both raw. -/
def dealCompanyOf (values : JsonV) : JsonV × JsonV :=
  match jsOrO (jget values "company") (jsOrO (jget values "organization")
    (jget values "associated_company")) with
  | some cd =>
    if truthy cd = false then (.null, .null)
    else
      match cd with
      | .arr (company :: _) =>
        (jsOrV (ojget (ojget (some company) "id") "record_id") (jsOrV (jget company "id") .null),
         jsOrV (jget company "name") (jsOrV (jget company "title")
           (jsOrV (jget company "value") .null)))
      | .str s => (.null, .str s)
      | .obj fs =>
        (jsOrV (ojget (jget (.obj fs) "id") "record_id") (jsOrV (jget (.obj fs) "id") .null),
         jsOrV (jget (.obj fs) "name") (jsOrV (jget (.obj fs) "title")
           (jsOrV (jget (.obj fs) "value") .null)))
      | _ => (.null, .null)
  | none => (.null, .null)

/-- Embeds the Apollo account-id lookup of lines 182 to 196, performed by
the dynamically imported getApolloOrganizationId helper (not part of the
embedded sources; its network activity is recorded as one opaque call).  A
lookup failure is caught and the sync continues without an account id. -/
def dealAccountIdOf (attioCompanyRecordId : JsonV) (orgIdLookup : Except String (Option String)) :
    Option String × List ApolloCall :=
  if truthy attioCompanyRecordId then
    match orgIdLookup with
    | .ok r => (r, [.lookupOrganizationId attioCompanyRecordId])
    | .error _ => (none, [.lookupOrganizationId attioCompanyRecordId])
  else (none, [])

/-- The marker embedded in opportunity descriptions for matching. -/
def attioMarker (recordId : String) : String := "[Attio Record ID: " ++ recordId ++ "]"

/-- Truthy-guarded includes on a possibly absent string. -/
def jsIncludesO (o : Option String) (pat : String) : Bool :=
  match o with
  | some s => s != "" && jsIncludes s pat
  | none => false

/-- The marker-based match predicate, lines 228 to 234. -/
def oppMarkerPred (recordId : String) (opp : ApolloOpp) : Bool :=
  jsIncludesO opp.description (attioMarker recordId)

/-- The exact-name match predicate, lines 239 to 256: a truthy name whose
lower-cased trimmed form equals that of the deal name.  The account-id
comparison inside the source predicate only logs; it returns true on the
name match either way. -/
def oppNamePred (dealName : String) (opp : ApolloOpp) : Bool :=
  match opp.name with
  | some s => s != "" && (jsTrim (jsToLower s) == jsTrim (jsToLower dealName))
  | none => false

/-- The deal matching on a string deal name: marker match first, then exact
name match. -/
def dealFindMatchStr (recordId : String) (dealName : String) (opps : List ApolloOpp) :
    Option ApolloOpp :=
  match opps.find? (oppMarkerPred recordId) with
  | some m => some m
  | none => opps.find? (oppNamePred dealName)

/-- Embeds the full matching step, lines 226 to 257: the marker scan never
touches the deal name, but the name scan calls toLowerCase on it, which
throws when the extracted deal name is a truthy non-string and some result
has a truthy name. -/
def dealFindMatch (recordId : String) (dealName : JsonV) (opps : List ApolloOpp) :
    Except String (Option ApolloOpp) :=
  match opps.find? (oppMarkerPred recordId) with
  | some m => .ok (some m)
  | none =>
    match dealName with
    | .str s => .ok (opps.find? (oppNamePred s))
    | _ =>
      if opps.any (fun o => jsTruthyStrOpt o.name) then
        .error "TypeError: dealName.toLowerCase is not a function"
      else .ok none

/-- The update-path description, lines 357 to 371: append the marker to a
truthy description lacking it, keep a description already carrying it, and
use the bare marker otherwise. -/
def dealUpdateDescription (recordId : String) (description : Option String) : String :=
  match description with
  | some d =>
    if d != "" then
      if jsIncludes d (attioMarker recordId) = false then d ++ "\n\n" ++ attioMarker recordId
      else d
    else attioMarker recordId
  | none => attioMarker recordId

/-- The create-path description, lines 388 to 391: append the marker to a
truthy description unconditionally, else the bare marker. -/
def dealCreateDescription (recordId : String) (description : Option String) : String :=
  match description with
  | some d => if d != "" then d ++ "\n\n" ++ attioMarker recordId else attioMarker recordId
  | none => attioMarker recordId

/-- The stage step of the deal update path, lines 312 to 339: a truthy
stage name is mapped; a mapped value that looks like an Apollo stage id
goes out as stage_id, anything else falls back to the original stage name
as stage_name.  Returns the stage_id field, the stage_name field, and the
Apollo requests the mapping issued. -/
def dealStageStep (oppStageCache : Option (List ApolloStage))
    (oppStageFetch : Except String (List ApolloStage)) (attioStage : Option String) :
    Option JsonV × Option JsonV × List ApolloCall :=
  match attioStage with
  | some s =>
    if s != "" then
      let m := mapDealStageToApollo oppStageCache oppStageFetch (some s)
      match m.result with
      | some sid =>
        if isApolloIdLike sid then (some (.str sid), none, m.calls)
        else (none, some (.str s), m.calls)
      | none => (none, some (.str s), m.calls)
    else (none, none, [])
  | none => (none, none, [])

/-- The update tail of the deal sync, lines 266 to 382 of the deal sync
module: the missing-id guard (thrown before the stage mapping runs), then
the update request carrying the assembled payload. -/
def dealFinishUpdate (matchedOpp : ApolloOpp) (preCalls stageCalls : List ApolloCall)
    (updateData : OppPayload) : Except String SyncResult × List ApolloCall :=
  if jsTruthyStrOpt matchedOpp.id = false then
    (.error "Found Apollo opportunity but missing ID", preCalls)
  else
    (.ok ⟨0, 1⟩,
      preCalls ++ stageCalls ++ [.updateOpportunity (matchedOpp.id.getD "") updateData])

/-- The create tail of the deal sync, lines 383 to 410. -/
def dealFinishCreate (preCalls : List ApolloCall) (createData : OppPayload) :
    Except String SyncResult × List ApolloCall :=
  (.ok ⟨1, 0⟩, preCalls ++ [.createOpportunity createData])

/-- Embeds syncDealToApollo, lines 44 to 411 of the deal sync module.
Oracles: the Attio fetch response, the opportunity-stage cache and fetch,
the organization-id lookup outcome, and the two opportunity search
responses (by name, then by keywords when the first is empty). -/
def syncDealToApollo (recordId : String) (attioRecord : Option JsonV)
    (oppStageCache : Option (List ApolloStage)) (oppStageFetch : Except String (List ApolloStage))
    (orgIdLookup : Except String (Option String))
    (searchByName searchByKeywords : List ApolloOpp) :
    Except String SyncResult × List ApolloCall :=
  match dataOf attioRecord with
  | none => (.error "Failed to fetch Attio deal record", [])
  | some _ =>
    let values := valuesOf attioRecord
    let dealName := dealNameOf values
    if truthy dealName = false then
      (.error "No deal name found. Name is required for syncing.", [])
    else
      let amount := extractNumberValueDeal (jsOrO (jget values "amount")
        (jsOrO (jget values "value") (jsOrO (jget values "deal_value")
          (jsOrO (jget values "total_value") (jget values "deal_amount")))))
      let attioStage := dealStageOf values
      let probability := extractNumberValueDeal (jsOrO (jget values "probability")
        (jsOrO (jget values "close_probability") (jsOrO (jget values "win_probability")
          (jget values "probability_percent"))))
      let closeDate := extractAttioValueDeal (jvOf (jsOrO (jget values "close_date")
        (jsOrO (jget values "expected_close_date") (jsOrO (jget values "closed_date")
          (jsOrO (jget values "target_close_date") (jget values "closeDate"))))))
      let description := extractAttioValueDeal (jvOf (jsOrO (jget values "description")
        (jsOrO (jget values "notes") (jsOrO (jget values "deal_notes")
          (jget values "summary")))))
      let company := dealCompanyOf values
      let acc := dealAccountIdOf company.1 orgIdLookup
      let accountId := acc.1
      let accountName := company.2
      let searchCalls : List ApolloCall :=
        if searchByName.length = 0 then
          [.searchOpportunities dealName, .searchOpportunities dealName]
        else [.searchOpportunities dealName]
      let apolloOpps := if searchByName.length = 0 then searchByKeywords else searchByName
      match dealFindMatch recordId dealName apolloOpps with
      | .error e => (.error e, acc.2 ++ searchCalls)
      | .ok (some matchedOpp) =>
        let stageStep := dealStageStep oppStageCache oppStageFetch attioStage
        let updateData : OppPayload :=
          { name := some dealName
            account_id := if jsTruthyStrOpt accountId then some (.str (accountId.getD "")) else none
            account_name :=
              if jsTruthyStrOpt accountId = false && truthy accountName then some accountName
              else none
            amount := amount.map fun n => .num n
            stage_id := stageStep.1
            stage_name := stageStep.2.1
            probability := probability.map fun n => .num n
            close_date := if jsTruthyStrOpt closeDate then some (.str (closeDate.getD "")) else none
            description := some (.str (dealUpdateDescription recordId description)) }
        dealFinishUpdate matchedOpp (acc.2 ++ searchCalls) stageStep.2.2 updateData
      | .ok none =>
        let createData : OppPayload :=
          { name := some dealName
            account_id := some (jsonOfStrOpt accountId)
            account_name := some accountName
            amount := some (match amount with | some n => .num n | none => .null)
            stage_name :=
              match attioStage with
              | some s => if s != "" then some (.str s) else none
              | none => none
            probability := some (match probability with | some n => .num n | none => .null)
            close_date := some (jsonOfStrOpt closeDate)
            description := some (.str (dealCreateDescription recordId description)) }
        dealFinishCreate (acc.2 ++ searchCalls) createData

/-! ## syncCompanyToApollo and its helpers
(sync-company-to-apollo.server.ts) -/

/-- An Apollo account search result, reduced to the fields the source
reads. -/
structure ApolloAccount where
  id : Option String := none
  name : Option String := none
  domain : Option String := none
  website_url : Option String := none
deriving Repr, DecidableEq

/-- The plain-object fallback of the company extractAttioValue, lines 304
to 315: value, name, title, label, each accepted only when a string. -/
def companyObjCase (o : JsonV) : JsonV :=
  match jget o "value" with
  | some (.str s) => .str s
  | _ =>
    match jget o "name" with
    | some (.str s) => .str s
    | _ =>
      match jget o "title" with
      | some (.str s) => .str s
      | _ =>
        match jget o "label" with
        | some (.str s) => .str s
        | _ => .null

/-- Embeds the company extractAttioValue, lines 286 to 319: first array
entry probed for value then name then a raw title-or-label fallback;
scalars coerced; plain objects through the string-guarded fallbacks. -/
def extractAttioValueCompany (attioData : JsonV) : JsonV :=
  if truthy attioData = false then .null
  else
    match attioData with
    | .arr (entry :: _) =>
      if hasNonNull (jget entry "value") then .str (jsString (jvOf (jget entry "value")))
      else if otruthy (jget entry "name") then .str (jsString (jvOf (jget entry "name")))
      else jsOrV (jget entry "title") (jsOrV (jget entry "label") .null)
    | .str s => .str s
    | .num n => .str (jsString (.num n))
    | .arr [] => companyObjCase (.arr [])
    | .obj fs => companyObjCase (.obj fs)
    | _ => .null

/-- Embeds the company extractNumberValue, lines 324 to 345: the first
array entry value probe returns immediately (null on NaN), numbers pass,
strings coerce (null on NaN), all else null. -/
def extractNumberValueCompany (attioData : Option JsonV) : Option Int :=
  if otruthy attioData = false then none
  else
    let v := jvOf attioData
    match v with
    | .arr (entry :: _) =>
      if hasNonNull (jget entry "value") then jsToNumber (jvOf (jget entry "value")) else none
    | .num n => some n
    | .str s => jsParseNum s
    | _ => none

/-- Embeds the company-name extraction, lines 31 to 40. -/
def companyNameOf (values : JsonV) : JsonV :=
  match jget values "name" with
  | some (.arr (e :: _)) => jsOrV (jget e "name") (jsOrV (jget e "value") .null)
  | some (.str s) => .str s
  | some (.obj fs) => jsOrV (jget (.obj fs) "name") (jsOrV (jget (.obj fs) "value") .null)
  | _ => .null

/-- Protocol stripping of the anchored http-or-https regex. -/
def stripProtocolL (l : List Char) : List Char :=
  if startsL "https://".data l then l.drop 8
  else if startsL "http://".data l then l.drop 7
  else l

/-- Leading www. stripping of the anchored regex. -/
def stripWwwL (l : List Char) : List Char :=
  if startsL "www.".data l then l.drop 4 else l

/-- Domain cleanup of line 70: strip protocol, strip www., drop everything
from the first slash, trim. -/
def domainCleanup (s : String) : String :=
  jsTrim ⟨(stripWwwL (stripProtocolL s.data)).takeWhile (· != '/')⟩

/-- Model of the unanchored fallback domain regex of lines 84 and 162: the
first non-slash run after an optional protocol and www prefix. -/
def domainRegexMatch (s : String) : Option String :=
  let rest := stripWwwL (stripProtocolL s.data)
  match (rest.dropWhile (· == '/')).takeWhile (· != '/') with
  | [] => none
  | l => some ⟨l⟩

/-- Embeds the domain extraction, lines 49 to 90: the domains field (first
array entry as a string, or its raw value, name, domain or title when an
object, else the company extractAttioValue), cleaned when truthy (throwing
when the raw value is a truthy non-string, since replace is called on it);
when still falsy, the website URL is parsed through the URL constructor
(the parseHost oracle; none models its exception) with the unanchored regex
as the catch fallback. -/
def companyDomainStep (values : JsonV) (parseHost : String → Option String) :
    Except String (Option String) := do
  let rawDomain : JsonV :=
    match jget values "domains" with
    | some dd =>
      if truthy dd = false then .null
      else
        match dd with
        | .arr (firstDomain :: _) =>
          match firstDomain with
          | .str s => .str s
          | .obj fs =>
            jsOrV (jget (.obj fs) "value") (jsOrV (jget (.obj fs) "name")
              (jsOrV (jget (.obj fs) "domain") (jsOrV (jget (.obj fs) "title") .null)))
          | .arr _ => .null
          | _ => .null
        | other => extractAttioValueCompany other
    | none => .null
  let cleaned : Option String ←
    if truthy rawDomain then
      match rawDomain with
      | .str s => pure (some (domainCleanup s))
      | _ => throw "TypeError: domain.replace is not a function"
    else pure none
  if jsTruthyStrOpt cleaned then
    return cleaned
  else
    let websiteUrl := extractAttioValueCompany (jvOf (jsOrO (jget values "website_url")
      (jsOrO (jget values "website") (jget values "domain"))))
    if truthy websiteUrl then
      match websiteUrl with
      | .str s =>
        let arg := if jsStartsWith s "http" then s else "https://" ++ s
        match parseHost arg with
        | some host => return some ⟨stripWwwL host.data⟩
        | none =>
          match domainRegexMatch s with
          | some d => return some d
          | none => return cleaned
      | _ => throw "TypeError: websiteUrl.startsWith is not a function"
    else
      return cleaned

/-- The exact-name account filter of lines 128 to 130; toLowerCase on a
truthy non-string company name throws as soon as some account has a truthy
name. -/
def accountNameFind (companyName : JsonV) (accounts : List ApolloAccount) :
    Except String (Option ApolloAccount) :=
  match companyName with
  | .str s =>
    .ok (accounts.find? fun a =>
      match a.name with
      | some an => an != "" && (jsTrim (jsToLower an) == jsTrim (jsToLower s))
      | none => false)
  | _ =>
    if accounts.any (fun a => jsTruthyStrOpt a.name) then
      .error "TypeError: companyName.toLowerCase is not a function"
    else .ok none

/-- The exact-domain account filter of lines 151 to 170. -/
def accountDomainPred (parseHost : String → Option String) (attioDomainLower : String)
    (account : ApolloAccount) : Bool :=
  let websiteCheck : Bool :=
    match account.website_url with
    | some w =>
      if w != "" then
        let arg := if jsStartsWith w "http" then w else "https://" ++ w
        match parseHost arg with
        | some host => jsToLower ⟨stripWwwL host.data⟩ == attioDomainLower
        | none =>
          match domainRegexMatch w with
          | some d => jsToLower ⟨stripWwwL d.data⟩ == attioDomainLower
          | none => false
      else false
    | none => false
  match account.domain with
  | some ad =>
    if ad != "" then jsTrim (jsToLower ⟨stripWwwL ad.data⟩) == attioDomainLower
    else websiteCheck
  | none => websiteCheck

/-- The final branch of the company sync, lines 178 to 281: a first match
with a truthy id is updated; otherwise (no match, or a match without an
id) a new account is created. -/
def companyFinish (accounts : List ApolloAccount) (searchCalls : List ApolloCall)
    (updateData createData : AccountPayload) : Except String SyncResult × List ApolloCall :=
  match accounts with
  | bestMatch :: _ =>
    if jsTruthyStrOpt bestMatch.id then
      (.ok ⟨0, 1⟩, searchCalls ++ [.updateAccount (bestMatch.id.getD "") updateData])
    else (.ok ⟨1, 0⟩, searchCalls ++ [.createAccount createData])
  | [] => (.ok ⟨1, 0⟩, searchCalls ++ [.createAccount createData])

/-- Embeds syncCompanyToApollo, sync-company-to-apollo.server.ts lines 15
to 281.  Oracles: the Attio fetch response, the URL-parsing host function
(none models a URL constructor exception), and the two account search
responses (the name search, then the repeated search of the domain
fallback). -/
def syncCompanyToApollo (attioRecord : Option JsonV) (parseHost : String → Option String)
    (searchResp1 searchResp2 : List ApolloAccount) :
    Except String SyncResult × List ApolloCall :=
  match dataOf attioRecord with
  | none => (.error "Failed to fetch Attio company record", [])
  | some _ =>
    let values := valuesOf attioRecord
    let companyName := companyNameOf values
    if truthy companyName = false then
      (.error "No company name found. Name is required for syncing.", [])
    else
      match companyDomainStep values parseHost with
      | .error e => (.error e, [])
      | .ok domain =>
        let websiteUrl := extractAttioValueCompany (jvOf (jsOrO (jget values "website_url")
          (jget values "website")))
        let linkedinUrl := extractAttioValueCompany (jvOf (jsOrO (jget values "linkedin")
          (jget values "linkedin_url")))
        let twitterUrl := extractAttioValueCompany (jvOf (jsOrO (jget values "twitter")
          (jget values "twitter_url")))
        let facebookUrl := extractAttioValueCompany (jvOf (jsOrO (jget values "facebook")
          (jget values "facebook_url")))
        let instagramUrl := extractAttioValueCompany (jvOf (jsOrO (jget values "instagram")
          (jget values "instagram_url")))
        let description := extractAttioValueCompany (jvOf (jsOrO (jget values "description")
          (jsOrO (jget values "bio") (jget values "about"))))
        let industry := extractAttioValueCompany (jvOf (jsOrO (jget values "industry")
          (jget values "sector")))
        let numEmployees := extractNumberValueCompany (jsOrO (jget values "num_employees")
          (jsOrO (jget values "employee_count") (jget values "estimated_num_employees")))
        let city := extractAttioValueCompany (jvOf (jsOrO (jget values "city")
          (ojget (jget values "primary_location") "city")))
        let state := extractAttioValueCompany (jvOf (jsOrO (jget values "state")
          (ojget (jget values "primary_location") "state")))
        let country := extractAttioValueCompany (jvOf (jsOrO (jget values "country")
          (ojget (jget values "primary_location") "country")))
        match accountNameFind companyName searchResp1 with
        | .error e => (.error e, [.searchAccounts (some companyName)])
        | .ok nameMatch =>
          let apolloAccounts1 : List ApolloAccount :=
            match nameMatch with
            | some m => [m]
            | none => []
          let domStep : List ApolloAccount × List ApolloCall :=
            if apolloAccounts1.length = 0 && jsTruthyStrOpt domain then
              let attioDomainLower := jsTrim (jsToLower (domain.getD ""))
              match searchResp2.find? (accountDomainPred parseHost attioDomainLower) with
              | some m => ([m], [.searchAccounts (some companyName)])
              | none => ([], [.searchAccounts (some companyName)])
            else (apolloAccounts1, [])
          let searchCalls := [ApolloCall.searchAccounts (some companyName)] ++ domStep.2
          let updateData : AccountPayload :=
            { name := if truthy companyName then some companyName else none
              website_url := if truthy websiteUrl then some websiteUrl else none
              linkedin_url := if truthy linkedinUrl then some linkedinUrl else none
              twitter_url := if truthy twitterUrl then some twitterUrl else none
              facebook_url := if truthy facebookUrl then some facebookUrl else none
              instagram_url := if truthy instagramUrl then some instagramUrl else none
              description := if truthy description then some description else none
              industry := if truthy industry then some industry else none
              estimated_num_employees := numEmployees.map fun n => .num n
              city := if truthy city then some city else none
              state := if truthy state then some state else none
              country := if truthy country then some country else none }
          let createData : AccountPayload :=
            { name := some companyName
              website_url := some websiteUrl
              linkedin_url := some linkedinUrl
              twitter_url := some twitterUrl
              facebook_url := some facebookUrl
              instagram_url := some instagramUrl
              description := some description
              industry := some industry
              estimated_num_employees :=
                some (match numEmployees with | some n => .num n | none => .null)
              city := some city
              state := some state
              country := some country }
          companyFinish domStep.1 searchCalls updateData createData

/-- Well-markedness of one Apollo request: any opportunity update or
create payload description it carries is a string containing the record-id
marker.  Requests of other kinds carry no opportunity description. -/
def callDescOk (recordId : String) : ApolloCall → Prop
  | .updateOpportunity _ p =>
    ∀ d, p.description = some d → ∃ s, d = .str s ∧ jsIncludes s (attioMarker recordId) = true
  | .createOpportunity p =>
    ∀ d, p.description = some d → ∃ s, d = .str s ∧ jsIncludes s (attioMarker recordId) = true
  | _ => True

/-- The description payload of an opportunity-create request, used to read
a concrete trace back. -/
def createDescOf : ApolloCall → Option JsonV
  | .createOpportunity p => p.description
  | _ => none

/-! ### Claims C1 and C2 -/

/-- Spec examples, section 8 of the specification: the documented inputs do
evaluate as documented. -/
theorem extract_spec_examples :
    extractAttioValue (.arr [.obj [("option", .obj [("title", .str "VP Sales")])]]) = .str "VP Sales"
    ∧ extractAttioValue (.arr [.obj [("value", .str "Acme")]]) = .str "Acme"
    ∧ extractAttioValue (.str "5551234") = .str "5551234"
    ∧ extractAttioValue .null = .null :=
  ⟨rfl, rfl, rfl, rfl⟩

/-- C1: the claim states extractAttioValue always returns a string or null.
The code violates its own declared return type (string or null): on the
malformed input consisting of one array entry whose title field holds the
number 42, the final fallback (line 48 of attribute-mapping.server.ts)
returns the raw truthy field value, here the number 42, which is neither a
string nor null.  Termination and absence of exceptions do hold (the
embedding is a total function), but the returned value is not a string. -/
theorem C1_extract_value_not_string_at_failing_input :
    extractAttioValue (.arr [.obj [("title", .num 42)]]) = .num 42
    ∧ (∀ s : String, JsonV.num 42 ≠ JsonV.str s)
    ∧ JsonV.num 42 ≠ JsonV.null :=
  ⟨rfl, fun s => by simp, by simp⟩

/-- C2 counterexample: the claim orders the fallback keys as value, name,
title, label.  On the plain object with both a name and a title field the
code returns the title, not the name: in the object branch title is checked
before name (lines 64 to 67 of attribute-mapping.server.ts). -/
theorem C2_counterexample_title_before_name :
    extractAttioValue (.obj [("name", .str "N"), ("title", .str "T")]) = .str "T"
    ∧ JsonV.str "T" ≠ JsonV.str "N" :=
  ⟨rfl, by simp⟩

/-- C2 amended: the priority order of extractAttioValue is tagged option
title first, then value, then title, then name, then label (title before
name, not name before title as claimed).  Formally: (1) on a plain object
carrying any subset of string-valued candidate fields the result is the
first present field in the order value, title, name, label; (2) in the
array-entry case a truthy tagged option title beats any value field; (3) in
the array-entry fallback a truthy title beats a name field. -/
theorem C2_amended_priority_order :
    (∀ v t n l : Option String,
      extractAttioValue (mkFlatObj v t n l) = jsonOfStrOpt (firstFieldStr v t n l))
    ∧ (∀ (t : String) (v : JsonV), t ≠ "" →
      extractAttioValue (.arr [.obj [("option", .obj [("title", .str t)]), ("value", v)]]) = .str t)
    ∧ (∀ t n : String, t ≠ "" →
      extractAttioValue (.arr [.obj [("title", .str t), ("name", .str n)]]) = .str t) := by
  refine ⟨?_, ?_, ?_⟩
  · intro v t n l
    cases v <;> cases t <;> cases n <;> cases l <;> rfl
  · intro t v ht
    have htb : (t != "") = true := by simpa using ht
    simp [extractAttioValue, extractEntry, ojget, jget, otruthy, truthy, jvOf, jsString, htb]
  · intro t n ht
    have htb : (t != "") = true := by simpa using ht
    simp [extractAttioValue, extractEntry, extractNamePart, ojget, jget, otruthy, truthy,
      hasNonNull, jsOrV, jvOf, jsString, List.lookup, htb]

/-- Witness for C2 amended: the theorem applied at concrete inputs, with the
hypotheses discharged there. -/
theorem C2_amended_priority_order_witness :
    extractAttioValue (mkFlatObj none (some "T") (some "N") none)
      = jsonOfStrOpt (firstFieldStr none (some "T") (some "N") none)
    ∧ extractAttioValue
        (.arr [.obj [("option", .obj [("title", .str "VP")]), ("value", .str "x")]]) = .str "VP" :=
  ⟨C2_amended_priority_order.1 none (some "T") (some "N") none,
   C2_amended_priority_order.2.1 "VP" (.str "x") (by decide)⟩


/-! ### Claims C3, C6 and C7 -/

/-- Helper: lower-casing a non-empty string is non-empty. -/
theorem jsToLower_ne_empty {t : String} (h : t ≠ "") : jsToLower t ≠ "" := by
  intro he
  apply h
  have hd : lowerL t.data = [] := congrArg String.data he
  have hnil : t.data = [] := by simpa [lowerL] using hd
  exact String.ext (by simp [hnil])

/-- C3 counterexample: a whitespace-only stage name trims to the same text
as a whitespace remote stage name (so the claim's exact case-insensitive
match after trimming exists), yet the opportunity-stage lookup returns null
because a search value normalizing to the empty string short-circuits. -/
theorem C3_counterexample_whitespace_input :
    jsToLower (jsTrim "  ") = jsToLower (jsTrim " ")
    ∧ findApolloOpportunityStageIdByName [⟨"1", " "⟩] "  " = none
    ∧ (none : Option String) ≠ some "1" := by
  refine ⟨rfl, rfl, by simp⟩

/-- C3 amended: for every stage name whose trimmed form is non-empty and
every stage list whose first exact case-insensitive (trimmed) match is st,
both lookups return the identifier of st, produced by the exact-match
branch (the result is the id of the first stage satisfying the exact
predicate, so the substring branch is never consulted). -/
theorem C3_amended_exact_match_wins
    (input : String) (stages : List ApolloStage) (st : ApolloStage)
    (hTrim : jsTrim input ≠ "")
    (hfind : stages.find? (stageExactPred (some (jsToLower (jsTrim input)))) = some st) :
    findApolloStageIdByName stages input = some st.id
    ∧ findApolloOpportunityStageIdByName stages input = some st.id := by
  have hin : input ≠ "" := by
    intro he
    exact hTrim (by rw [he]; decide)
  have hns : normalizeStage (some input) = some (jsToLower (jsTrim input)) := by
    simp [normalizeStage, hin]
  have hnsne : jsToLower (jsTrim input) ≠ "" := jsToLower_ne_empty hTrim
  constructor
  · simp [findApolloStageIdByName, hns, hfind]
  · have hne : stages ≠ [] := by
      intro he
      rw [he] at hfind
      simp at hfind
    have hemp : stages.isEmpty = false := by
      cases stages with
      | nil => exact absurd rfl hne
      | cons a l => rfl
    simp [findApolloOpportunityStageIdByName, hemp, hns, hnsne, hfind]

/-- Witness for C3: the spec example, stage name closed won against the
remote list with one stage named Closed Won, yields id 1 through both
lookups. -/
theorem C3_amended_exact_match_wins_witness :
    findApolloStageIdByName [⟨"1", "Closed Won"⟩] "closed won" = some "1"
    ∧ findApolloOpportunityStageIdByName [⟨"1", "Closed Won"⟩] "closed won" = some "1" :=
  C3_amended_exact_match_wins "closed won" [⟨"1", "Closed Won"⟩] ⟨"1", "Closed Won"⟩
    (by decide) (by decide)

/-- C6: with the stage cache populated (with any list, unchanged between
calls) mapStageToApollo issues no network request, leaves the cache as it
is, and its output does not depend on what the stage-list endpoint would
have returned; hence two successive calls on the same input return the same
output. -/
theorem C6_stage_mapping_deterministic_with_cache
    (l : List ApolloStage) (f₁ f₂ : Except String (List ApolloStage)) (inp : Option String) :
    mapStageToApollo (some l) f₁ inp = mapStageToApollo (some l) f₂ inp
    ∧ (mapStageToApollo (some l) f₁ inp).cache = some l
    ∧ (mapStageToApollo (some l) f₁ inp).calls = [] := by
  cases inp with
  | none => exact ⟨rfl, rfl, rfl⟩
  | some stg =>
    by_cases hs : stg = ""
    · subst hs
      exact ⟨rfl, rfl, rfl⟩
    · cases hfr : findApolloStageIdByName l stg with
      | none =>
        refine ⟨?_, ?_, ?_⟩ <;>
          simp [mapStageToApollo, hs, getApolloStages, tableGet, STAGE_NAME_MAPPING, jsOrS,
            jsTruthyStrOpt, hfr]
      | some r =>
        by_cases hr : r = "" <;>
          refine ⟨?_, ?_, ?_⟩ <;>
            simp [mapStageToApollo, hs, getApolloStages, tableGet, STAGE_NAME_MAPPING, jsOrS,
              jsTruthyStrOpt, hfr, hr]

/-- C7 counterexample: on a deal-stage input with surrounding whitespace on
which the manual table, the exact match and the substring match all fail
(shown by the conjuncts), mapDealStageToApollo returns the trimmed text,
not the original input text. -/
theorem C7_counterexample_deal_trimming :
    (mapDealStageToApollo (some []) (.ok []) (some " Unknown Stage ")).result
      = some "Unknown Stage"
    ∧ tableGet OPPORTUNITY_STAGE_NAME_MAPPING (jsTrim " Unknown Stage ") = none
    ∧ tableGet OPPORTUNITY_STAGE_NAME_MAPPING
        ((normalizeStage (some (jsTrim " Unknown Stage "))).getD "") = none
    ∧ findApolloOpportunityStageIdByName [] (jsTrim " Unknown Stage ") = none
    ∧ (some "Unknown Stage" : Option String) ≠ some " Unknown Stage " := by
  refine ⟨rfl, rfl, rfl, rfl, by decide⟩

/-- C7 amended: when the manual table, the exact match and the substring
match all fail against the cached stage list, the contact-stage mapping
passes the original input text through unchanged, while the deal-stage
mapping returns the trimmed input text (the original changed only by
trimming). -/
theorem C7_amended_unmatched_passthrough
    (l : List ApolloStage) (f : Except String (List ApolloStage)) (input : String)
    (hContact : findApolloStageIdByName l input = none)
    (hTbl1 : tableGet OPPORTUNITY_STAGE_NAME_MAPPING (jsTrim input) = none)
    (hTbl2 : tableGet OPPORTUNITY_STAGE_NAME_MAPPING
      ((normalizeStage (some (jsTrim input))).getD "") = none)
    (hDeal : findApolloOpportunityStageIdByName l (jsTrim input) = none) :
    (mapStageToApollo (some l) f (some input)).result = some input
    ∧ (mapDealStageToApollo (some l) f (some input)).result = some (jsTrim input) := by
  constructor
  · by_cases hs : input = ""
    · subst hs
      rfl
    · simp [mapStageToApollo, hs, getApolloStages, tableGet, STAGE_NAME_MAPPING, jsOrS,
        hContact, jsTruthyStrOpt]
  · by_cases hs : input = ""
    · subst hs
      rfl
    · by_cases hid : isApolloIdLike (jsTrim input)
      · simp [mapDealStageToApollo, hs, hid]
      · cases hnz : normalizeStage (some (jsTrim input)) with
        | none =>
          simp [mapDealStageToApollo, oppManualStep, oppNormalizedStep, hs, hid, hTbl1, hnz,
            getApolloOpportunityStages, hDeal, jsTruthyStrOpt]
        | some nz =>
          have hTbl2nz : tableGet OPPORTUNITY_STAGE_NAME_MAPPING nz = none := by
            rw [hnz] at hTbl2
            simpa using hTbl2
          simp [mapDealStageToApollo, oppManualStep, oppNormalizedStep, hs, hid, hTbl1, hnz,
            hTbl2nz, getApolloOpportunityStages, hDeal, jsTruthyStrOpt]

/-- Witness for C7: a stage name unknown to every table and to an empty
cached stage list passes through: unchanged for contacts, trimmed for
deals. -/
theorem C7_amended_unmatched_passthrough_witness :
    (mapStageToApollo (some []) (.ok []) (some "zzz")).result = some "zzz"
    ∧ (mapDealStageToApollo (some []) (.ok []) (some "zzz")).result = some (jsTrim "zzz") :=
  C7_amended_unmatched_passthrough [] (.ok []) "zzz" (by decide) (by decide) (by decide)
    (by decide)

/-! ### Substring helper lemmas -/

/-- A block starts with itself. -/
theorem startsL_self (l : List Char) : startsL l l = true := by
  induction l with
  | nil => rfl
  | cons c rest ih => simp [startsL, ih]

/-- A block starts any extension of itself. -/
theorem startsL_append (p t : List Char) : startsL p (p ++ t) = true := by
  induction p with
  | nil => rfl
  | cons c rest ih => simp [startsL, ih]

/-- The empty pattern occurs everywhere. -/
theorem containsL_nil (l : List Char) : containsL [] l = true := by
  cases l with
  | nil => rfl
  | cons c rest => simp [containsL, startsL]

/-- A pattern occurs at the head of any extension of itself. -/
theorem containsL_head (p t : List Char) : containsL p (p ++ t) = true := by
  cases p with
  | nil => exact containsL_nil t
  | cons c rest =>
    simp only [containsL, List.cons_append, Bool.or_eq_true]
    exact Or.inl (by simp [startsL, startsL_append])

/-- Occurrence is preserved by prepending. -/
theorem containsL_append_left (x p l : List Char) (h : containsL p l = true) :
    containsL p (x ++ l) = true := by
  induction x with
  | nil => simpa using h
  | cons c rest ih => simp [containsL, ih]

/-- A string includes itself. -/
theorem jsIncludes_self (s : String) : jsIncludes s s = true := by
  simpa [jsIncludes] using containsL_head s.data []

/-- Appending the marker makes the result include it. -/
theorem jsIncludes_append (d sep m : String) :
    jsIncludes (d ++ sep ++ m) m = true := by
  have h : containsL m.data m.data = true := by
    simpa using containsL_head m.data []
  simp only [jsIncludes, String.data_append]
  exact containsL_append_left _ _ _ h

/-! ### Claim C4 -/

/-- C4: on a person record carrying no email address (after the data guard
and values defaulting embedded in emailOf and valuesOf), syncToApollo
throws and its Apollo request trace is empty: the error precedes every
request to the target platform. -/
theorem C4_missing_email_fails_before_any_apollo_call
    (attioRecord : Option JsonV) (stageCache : Option (List ApolloStage))
    (stageFetch : Except String (List ApolloStage)) (searchResp : List ApolloContact)
    (h : otruthy (emailOf (valuesOf attioRecord)) = false) :
    (∃ e, (syncToApollo attioRecord stageCache stageFetch searchResp).1 = .error e)
    ∧ (syncToApollo attioRecord stageCache stageFetch searchResp).2 = [] := by
  unfold syncToApollo
  cases hd : dataOf attioRecord with
  | none => exact ⟨⟨_, rfl⟩, rfl⟩
  | some d =>
    simp only [h]
    exact ⟨⟨_, rfl⟩, rfl⟩

/-- Witness for C4: a fetched record whose values hold no email. -/
theorem C4_missing_email_fails_before_any_apollo_call_witness :
    (∃ e, (syncToApollo (some (.obj [("data", .obj [("values", .obj [])])]))
      (some []) (.ok []) []).1 = .error e)
    ∧ (syncToApollo (some (.obj [("data", .obj [("values", .obj [])])]))
      (some []) (.ok []) []).2 = [] :=
  C4_missing_email_fails_before_any_apollo_call _ _ _ _ (by decide)

/-! ### Claim C8 -/

/-- C8: onRecordUpdated returns normally on every event and every sync
outcome; a non-people event is skipped and the catch block swallows any
sync error, so no error ever propagates to the caller. -/
theorem C8_event_handler_never_propagates
    (eventObject : String) (attioRecord : Option JsonV)
    (stageCache : Option (List ApolloStage)) (stageFetch : Except String (List ApolloStage))
    (searchResp : List ApolloContact) :
    (onRecordUpdated eventObject attioRecord stageCache stageFetch searchResp).1 = .ok () := by
  unfold onRecordUpdated
  split
  · rfl
  · dsimp only
    cases (syncToApollo attioRecord stageCache stageFetch searchResp).1 <;> rfl

/-! ### Claim C5 -/

/-- C5 counterexample: the person sync searches Apollo by the email as a
keyword and then updates the first result without comparing its email to
the record's; here the only search result carries a different email (the
second conjunct), yet the sync takes the update path. -/
theorem C5_counterexample_person_updates_without_email_match :
    (syncToApollo
      (some (.obj [("data", .obj [("values",
        .obj [("email_addresses", .arr [.obj [("email_address", .str "a@x.com")]])])])]))
      (some []) (.ok []) [{ id := some "c1", email := some "b@y.com" }]).1 = .ok ⟨0, 1⟩
    ∧ jsToLower "b@y.com" ≠ jsToLower "a@x.com" :=
  ⟨rfl, by decide⟩

/-- C5 amended: entity matching is keyed as follows.  The person sync
updates exactly when the email keyword search returns at least one result,
without verifying that the result's email equals the record's email (first
conjunct).  The deal matching accepts a result only on the record-id marker
in its description or on an exact case-insensitive name match (second
conjunct), and creates when no result satisfies either (third conjunct). -/
theorem C5_amended_matching :
    (∀ (attioRecord : Option JsonV) (stageCache : Option (List ApolloStage))
      (stageFetch : Except String (List ApolloStage)) (searchResp : List ApolloContact)
      (r : SyncResult),
      (syncToApollo attioRecord stageCache stageFetch searchResp).1 = .ok r →
      (r.updated = 1 ↔ searchResp ≠ []))
    ∧ (∀ (recordId dealName : String) (opps : List ApolloOpp) (m : ApolloOpp),
      dealFindMatchStr recordId dealName opps = some m →
      oppMarkerPred recordId m = true ∨ oppNamePred dealName m = true)
    ∧ (∀ (recordId dealName : String) (opps : List ApolloOpp),
      (∀ m ∈ opps, oppMarkerPred recordId m = false ∧ oppNamePred dealName m = false) →
      dealFindMatchStr recordId dealName opps = none) := by
  refine ⟨?_, ?_, ?_⟩
  · intro attioRecord stageCache stageFetch searchResp r h
    simp only [syncToApollo] at h
    repeat' split at h
    all_goals simp_all
    all_goals (cases h; simp)
  · intro recordId dealName opps m h
    unfold dealFindMatchStr at h
    cases hm : opps.find? (oppMarkerPred recordId) with
    | some x =>
      simp only [hm] at h
      cases h
      exact Or.inl (List.find?_some hm)
    | none =>
      simp only [hm] at h
      exact Or.inr (List.find?_some h)
  · intro recordId dealName opps hall
    have h1 : opps.find? (oppMarkerPred recordId) = none :=
      List.find?_eq_none.mpr fun x hx => by simp [(hall x hx).1]
    have h2 : opps.find? (oppNamePred dealName) = none :=
      List.find?_eq_none.mpr fun x hx => by simp [(hall x hx).2]
    simp [dealFindMatchStr, h1, h2]

/-- Witness for C5 amended: the person part applied to a concrete run on a
one-result search, and the deal part applied to a marker-carrying
result. -/
theorem C5_amended_matching_witness :
    ((⟨0, 1⟩ : SyncResult).updated = 1
      ↔ ([{ id := some "c1", email := some "b@y.com" }] : List ApolloContact) ≠ [])
    ∧ (oppMarkerPred "r1" { id := some "o1", description := some "x [Attio Record ID: r1] y" } = true
      ∨ oppNamePred "D" { id := some "o1", description := some "x [Attio Record ID: r1] y" } = true) :=
  ⟨C5_amended_matching.1
      (some (.obj [("data", .obj [("values",
        .obj [("email_addresses", .arr [.obj [("email_address", .str "a@x.com")]])])])]))
      (some []) (.ok []) [{ id := some "c1", email := some "b@y.com" }] ⟨0, 1⟩ rfl,
   C5_amended_matching.2.1 "r1" "D"
      [{ id := some "o1", description := some "x [Attio Record ID: r1] y" }]
      { id := some "o1", description := some "x [Attio Record ID: r1] y" } (by decide)⟩

/-! ### Claim C9 -/

/-- C9: every successful (non-throwing) run of the person, company and
deal sync returns either one creation and no update or one update and no
creation; created plus updated is always exactly one. -/
theorem C9_success_returns_exactly_one_create_or_update :
    (∀ (attioRecord : Option JsonV) (stageCache : Option (List ApolloStage))
      (stageFetch : Except String (List ApolloStage)) (searchResp : List ApolloContact)
      (r : SyncResult),
      (syncToApollo attioRecord stageCache stageFetch searchResp).1 = .ok r →
      r = ⟨1, 0⟩ ∨ r = ⟨0, 1⟩)
    ∧ (∀ (attioRecord : Option JsonV) (parseHost : String → Option String)
      (s1 s2 : List ApolloAccount) (r : SyncResult),
      (syncCompanyToApollo attioRecord parseHost s1 s2).1 = .ok r →
      r = ⟨1, 0⟩ ∨ r = ⟨0, 1⟩)
    ∧ (∀ (recordId : String) (attioRecord : Option JsonV)
      (oppStageCache : Option (List ApolloStage))
      (oppStageFetch : Except String (List ApolloStage))
      (orgIdLookup : Except String (Option String))
      (searchByName searchByKeywords : List ApolloOpp) (r : SyncResult),
      (syncDealToApollo recordId attioRecord oppStageCache oppStageFetch orgIdLookup
        searchByName searchByKeywords).1 = .ok r →
      r = ⟨1, 0⟩ ∨ r = ⟨0, 1⟩) := by
  refine ⟨?_, ?_, ?_⟩
  · intro attioRecord stageCache stageFetch searchResp r h
    simp only [syncToApollo] at h
    repeat' split at h
    all_goals simp_all
  · intro attioRecord parseHost s1 s2 r h
    have hfin : ∀ (accounts : List ApolloAccount) (sc : List ApolloCall)
        (u c : AccountPayload), (companyFinish accounts sc u c).1 = .ok r →
        r = ⟨1, 0⟩ ∨ r = ⟨0, 1⟩ := by
      intro accounts sc u c hh
      unfold companyFinish at hh
      repeat' split at hh
      all_goals (cases hh; simp)
    simp only [syncCompanyToApollo] at h
    split at h
    · simp at h
    · split at h
      · simp at h
      · split at h
        · simp at h
        · split at h
          · simp at h
          · exact hfin _ _ _ _ h
  · intro recordId attioRecord c f o sn sk r h
    have hup : ∀ (m : ApolloOpp) (pc sc : List ApolloCall) (u : OppPayload),
        (dealFinishUpdate m pc sc u).1 = .ok r → r = ⟨1, 0⟩ ∨ r = ⟨0, 1⟩ := by
      intro m pc sc u hh
      unfold dealFinishUpdate at hh
      split at hh
      · simp at hh
      · cases hh
        simp
    have hcr : ∀ (pc : List ApolloCall) (cd : OppPayload),
        (dealFinishCreate pc cd).1 = .ok r → r = ⟨1, 0⟩ ∨ r = ⟨0, 1⟩ := by
      intro pc cd hh
      unfold dealFinishCreate at hh
      cases hh
      simp
    simp only [syncDealToApollo] at h
    split at h
    · simp at h
    · split at h
      · simp at h
      · split at h
        · simp at h
        · exact hup _ _ _ _ h
        · exact hcr _ _ h

/-- Witness for C9: one concrete successful run of each sync (each takes
the create path against an empty search result), with the success
hypothesis discharged by evaluation. -/
theorem C9_success_returns_exactly_one_create_or_update_witness :
    ((⟨1, 0⟩ : SyncResult) = ⟨1, 0⟩ ∨ (⟨1, 0⟩ : SyncResult) = ⟨0, 1⟩)
    ∧ ((⟨1, 0⟩ : SyncResult) = ⟨1, 0⟩ ∨ (⟨1, 0⟩ : SyncResult) = ⟨0, 1⟩)
    ∧ ((⟨1, 0⟩ : SyncResult) = ⟨1, 0⟩ ∨ (⟨1, 0⟩ : SyncResult) = ⟨0, 1⟩) :=
  ⟨C9_success_returns_exactly_one_create_or_update.1
      (some (.obj [("data", .obj [("values",
        .obj [("email_addresses", .arr [.obj [("email_address", .str "a@x.com")]])])])]))
      (some []) (.ok []) [] ⟨1, 0⟩ rfl,
   C9_success_returns_exactly_one_create_or_update.2.1
      (some (.obj [("data", .obj [("values",
        .obj [("name", .arr [.obj [("name", .str "Acme")]])])])]))
      (fun _ => none) [] [] ⟨1, 0⟩ rfl,
   C9_success_returns_exactly_one_create_or_update.2.2 "r9"
      (some (.obj [("data", .obj [("values",
        .obj [("name", .arr [.obj [("name", .str "Deal Y")]])])])]))
      (some []) (.ok []) (.ok none) [] [] ⟨1, 0⟩ rfl⟩

/-! ### Claim C10 -/

/-- Helper: the opportunity stage fetch issues at most the stage-list
request. -/
theorem getOppStages_calls_mem (cache : Option (List ApolloStage))
    (f : Except String (List ApolloStage)) (c : ApolloCall)
    (h : c ∈ (getApolloOpportunityStages cache f).calls) : c = .listOpportunityStages := by
  unfold getApolloOpportunityStages at h
  split at h
  · simp at h
  · split at h <;> simp_all

/-- Helper: the manual-table probe only issues stage-list requests. -/
theorem oppManualStep_calls_mem (cache : Option (List ApolloStage))
    (f : Except String (List ApolloStage)) (key : String) (c : ApolloCall)
    (h : c ∈ (oppManualStep cache f key).2.2) : c = .listOpportunityStages := by
  simp only [oppManualStep] at h
  repeat' split at h
  all_goals simp_all
  all_goals exact getOppStages_calls_mem _ _ _ h

/-- Helper: the normalized manual-table probe only issues stage-list
requests. -/
theorem oppNormalizedStep_calls_mem (cache : Option (List ApolloStage))
    (f : Except String (List ApolloStage)) (t : String) (c : ApolloCall)
    (h : c ∈ (oppNormalizedStep cache f t).2.2) : c = .listOpportunityStages := by
  simp only [oppNormalizedStep] at h
  repeat' split at h
  all_goals simp_all
  all_goals exact oppManualStep_calls_mem _ _ _ _ h

/-- Helper: the deal-stage mapping only issues stage-list requests. -/
theorem mapDealStage_calls_mem (cache : Option (List ApolloStage))
    (f : Except String (List ApolloStage)) (i : Option String) (c : ApolloCall)
    (h : c ∈ (mapDealStageToApollo cache f i).calls) : c = .listOpportunityStages := by
  simp only [mapDealStageToApollo] at h
  repeat' split at h
  all_goals simp_all [List.mem_append]
  all_goals try casesm* _ ∨ _
  all_goals
    first
    | exact getOppStages_calls_mem _ _ _ ‹_›
    | exact oppManualStep_calls_mem _ _ _ _ ‹_›
    | exact oppNormalizedStep_calls_mem _ _ _ _ ‹_›

/-- Helper: the stage step of the deal update path only issues stage-list
requests. -/
theorem dealStageStep_calls_mem (cache : Option (List ApolloStage))
    (f : Except String (List ApolloStage)) (i : Option String) (c : ApolloCall)
    (h : c ∈ (dealStageStep cache f i).2.2) : c = .listOpportunityStages := by
  simp only [dealStageStep] at h
  repeat' split at h
  all_goals simp_all
  all_goals exact mapDealStage_calls_mem _ _ _ _ h

/-- Helper: the account-id lookup step issues at most the lookup
request. -/
theorem dealAccountIdOf_calls_mem (x : JsonV) (o : Except String (Option String)) (c : ApolloCall)
    (h : c ∈ (dealAccountIdOf x o).2) : c = .lookupOrganizationId x := by
  unfold dealAccountIdOf at h
  repeat' split at h
  all_goals simp_all

/-- Helper: the update-path description always contains the marker. -/
theorem dealUpdateDescription_includes_marker (recordId : String) (description : Option String) :
    jsIncludes (dealUpdateDescription recordId description) (attioMarker recordId) = true := by
  unfold dealUpdateDescription
  cases description with
  | none => exact jsIncludes_self _
  | some d =>
    by_cases hd : d = ""
    · simp [hd, jsIncludes_self]
    · have hd2 : (d != "") = true := by simpa using hd
      by_cases hi : jsIncludes d (attioMarker recordId) = false
      · simp [hd2, hi, jsIncludes_append]
      · have hi2 : jsIncludes d (attioMarker recordId) = true := by
          cases hb : jsIncludes d (attioMarker recordId)
          · exact absurd hb hi
          · rfl
        simp [hd2, hi2]

/-- Helper: the create-path description always contains the marker. -/
theorem dealCreateDescription_includes_marker (recordId : String) (description : Option String) :
    jsIncludes (dealCreateDescription recordId description) (attioMarker recordId) = true := by
  unfold dealCreateDescription
  cases description with
  | none => exact jsIncludes_self _
  | some d =>
    by_cases hd : d = ""
    · simp [hd, jsIncludes_self]
    · have hd2 : (d != "") = true := by simpa using hd
      simp [hd2, jsIncludes_append]

/-- Helper: the update tail's trace splits into the preceding calls, the
stage-mapping calls, and the one update request. -/
theorem dealFinishUpdate_trace_mem (m : ApolloOpp) (pc sc : List ApolloCall) (u : OppPayload)
    (c : ApolloCall) (h : c ∈ (dealFinishUpdate m pc sc u).2) :
    c ∈ pc ∨ c ∈ sc ∨ c = .updateOpportunity (m.id.getD "") u := by
  unfold dealFinishUpdate at h
  split at h
  · exact Or.inl h
  · rw [List.append_assoc] at h
    rcases List.mem_append.mp h with h | h
    · exact Or.inl h
    · rcases List.mem_append.mp h with h | h
      · exact Or.inr (Or.inl h)
      · exact Or.inr (Or.inr (by simpa using h))

/-- C10 amended: the deal descriptions sent to Apollo contain the record-id
marker at least once, not exactly once (the create path appends the marker
even when the description already carries it, so it can appear twice).
Formally: (1) the update-path description contains the marker; (2) the
create-path description contains the marker; (3) a search result whose
description carries the marker is matched before any name-based matching
(the first marker match is returned without consulting the name); (4) every
opportunity update or create request in any deal-sync trace carries a
marker-bearing description. -/
theorem C10_amended_marker_in_descriptions :
    (∀ (recordId : String) (description : Option String),
      jsIncludes (dealUpdateDescription recordId description) (attioMarker recordId) = true)
    ∧ (∀ (recordId : String) (description : Option String),
      jsIncludes (dealCreateDescription recordId description) (attioMarker recordId) = true)
    ∧ (∀ (recordId : String) (dealName : JsonV) (opps : List ApolloOpp) (m : ApolloOpp),
      opps.find? (oppMarkerPred recordId) = some m →
      dealFindMatch recordId dealName opps = .ok (some m))
    ∧ (∀ (recordId : String) (attioRecord : Option JsonV)
      (oppStageCache : Option (List ApolloStage))
      (oppStageFetch : Except String (List ApolloStage))
      (orgIdLookup : Except String (Option String))
      (searchByName searchByKeywords : List ApolloOpp)
      (call : ApolloCall),
      call ∈ (syncDealToApollo recordId attioRecord oppStageCache oppStageFetch orgIdLookup
        searchByName searchByKeywords).2 → callDescOk recordId call) := by
  refine ⟨dealUpdateDescription_includes_marker, dealCreateDescription_includes_marker, ?_, ?_⟩
  · intro recordId dealName opps m hm
    unfold dealFindMatch
    simp [hm]
  · intro recordId attioRecord cch f o sn sk call hc
    have hsearch : ∀ (dn : JsonV),
        call ∈ (if sn.length = 0 then
          [ApolloCall.searchOpportunities dn, ApolloCall.searchOpportunities dn]
          else [ApolloCall.searchOpportunities dn]) → callDescOk recordId call := by
      intro dn hin
      have he : call = ApolloCall.searchOpportunities dn := by
        split at hin <;> simpa using hin
      rw [he]
      trivial
    have hpre : ∀ (x : JsonV) (oo : Except String (Option String)) (dn : JsonV),
        call ∈ (dealAccountIdOf x oo).2 ++ (if sn.length = 0 then
          [ApolloCall.searchOpportunities dn, ApolloCall.searchOpportunities dn]
          else [ApolloCall.searchOpportunities dn]) → callDescOk recordId call := by
      intro x oo dn hin
      rcases List.mem_append.mp hin with h1 | h2
      · rw [dealAccountIdOf_calls_mem _ _ _ h1]
        trivial
      · exact hsearch dn h2
    simp only [syncDealToApollo] at hc
    split at hc
    · simp at hc
    · split at hc
      · simp at hc
      · split at hc
        · exact hpre _ _ _ hc
        · rcases dealFinishUpdate_trace_mem _ _ _ _ _ hc with h1 | h2 | h3
          · exact hpre _ _ _ h1
          · rw [dealStageStep_calls_mem _ _ _ _ h2]
            trivial
          · rw [h3]
            exact fun d hd =>
              ⟨_, (Option.some.inj hd).symm, dealUpdateDescription_includes_marker _ _⟩
        · unfold dealFinishCreate at hc
          rcases List.mem_append.mp hc with h1 | h2
          · exact hpre _ _ _ h1
          · have h3 := List.mem_singleton.mp h2
            rw [h3]
            exact fun d hd =>
              ⟨_, (Option.some.inj hd).symm, dealCreateDescription_includes_marker _ _⟩

/-- Witness for C10 amended: part three applied to a marker-carrying
search result, and part four applied to a concrete deal-sync run and the
first request of its trace. -/
theorem C10_amended_marker_in_descriptions_witness :
    dealFindMatch "r1" (.str "D")
      [⟨some "o1", some "Other", some "[Attio Record ID: r1]", none⟩]
      = .ok (some ⟨some "o1", some "Other", some "[Attio Record ID: r1]", none⟩)
    ∧ callDescOk "r9" (.searchOpportunities (.str "Deal Y")) :=
  ⟨C10_amended_marker_in_descriptions.2.2.1 "r1" (.str "D")
      [⟨some "o1", some "Other", some "[Attio Record ID: r1]", none⟩]
      ⟨some "o1", some "Other", some "[Attio Record ID: r1]", none⟩
      (by decide),
   C10_amended_marker_in_descriptions.2.2.2 "r9"
      (some (.obj [("data", .obj [("values",
        .obj [("name", .arr [.obj [("name", .str "Deal Y")]])])])]))
      (some []) (.ok []) (.ok none) [] [] (.searchOpportunities (.str "Deal Y"))
      (List.Mem.head _)⟩

/-- C10 counterexample: on a deal whose Attio description already contains
the record-id marker, the create path appends the marker again without the
duplicate check the update path performs, so the description sent to
Apollo contains the marker twice, not exactly once. -/
theorem C10_counterexample_duplicate_marker_on_create :
    ((syncDealToApollo "r1"
      (some (.obj [("data", .obj [("values", .obj [
        ("name", .arr [.obj [("name", .str "Deal X")]]),
        ("description", .arr [.obj [("value", .str "See [Attio Record ID: r1]")]])])])]))
      (some []) (.ok []) (.ok none) [] []).2.findSome? createDescOf)
      = some (.str "See [Attio Record ID: r1]\n\n[Attio Record ID: r1]")
    ∧ countOcc "See [Attio Record ID: r1]\n\n[Attio Record ID: r1]" (attioMarker "r1") = 2
    ∧ (2 : Nat) ≠ 1 :=
  ⟨rfl, by decide, by decide⟩

end AttioApollo
